import Mathlib

/-!
Verification of the ChattenComputeFi ledger/marketplace contract
(src/contracts/chatten_token.py, neo3-boa source).

The contract's persistent storage is an ordered key-value map addressed by
single-byte prefixes.  We embed each prefix family as an association-list map
from a typed key to its value; absence of a key is the canonical zero/empty
value, matching the contract's read helpers which return 0 / false / empty for
missing keys.  Every public operation is translated assert-by-assert into an
executable Lean function returning an error (the abort of a failed assert,
which rolls back every write) or the successor state.
-/

namespace Chatten

/-- Lookup in an association-list storage map: the value at the first entry
whose key matches, mirroring a key-value store read. -/
def mget {K V : Type} [DecidableEq K] : List (K × V) → K → Option V
  | [], _ => none
  | e :: rest, k => if e.1 = k then some e.2 else mget rest k

/-- Lookup with a default value, mirroring the contract's pattern
of a storage read returning the zero value when the key is absent. -/
def mgetD {K V : Type} [DecidableEq K] (l : List (K × V)) (k : K) (d : V) : V :=
  (mget l k).getD d

/-- Delete every entry with the given key, mirroring a storage delete. -/
def mdel {K V : Type} [DecidableEq K] : List (K × V) → K → List (K × V)
  | [], _ => []
  | e :: rest, k => if e.1 = k then mdel rest k else e :: mdel rest k

/-- Write a key-value pair, mirroring a storage put (replacing any
previous value at the key). -/
def mset {K V : Type} [DecidableEq K] (l : List (K × V)) (k : K) (v : V) :
    List (K × V) :=
  (k, v) :: mdel l k

/-- Sum of the values at keys satisfying a predicate. -/
def sumBy {K : Type} (p : K → Prop) [DecidablePred p] (l : List (K × Int)) : Int :=
  (l.map (fun e => if p e.1 then e.2 else 0)).sum

theorem sumBy_nil {K : Type} (p : K → Prop) [DecidablePred p] :
    sumBy p ([] : List (K × Int)) = 0 := rfl

theorem sumBy_cons {K : Type} (p : K → Prop) [DecidablePred p] (e : K × Int)
    (l : List (K × Int)) :
    sumBy p (e :: l) = (if p e.1 then e.2 else 0) + sumBy p l := by
  simp [sumBy]

theorem mget_eq_none {K V : Type} [DecidableEq K] {l : List (K × V)} {k : K}
    (h : k ∉ l.map Prod.fst) : mget l k = none := by
  induction l with
  | nil => rfl
  | cons e rest ih =>
    simp only [List.map_cons, List.mem_cons] at h
    push_neg at h
    simp only [mget]
    rw [if_neg (fun he : e.1 = k => h.1 he.symm)]
    exact ih h.2

theorem mdel_eq_self {K V : Type} [DecidableEq K] {l : List (K × V)} {k : K}
    (h : k ∉ l.map Prod.fst) : mdel l k = l := by
  induction l with
  | nil => rfl
  | cons e rest ih =>
    simp only [List.map_cons, List.mem_cons] at h
    push_neg at h
    simp only [mdel]
    rw [if_neg (fun he : e.1 = k => h.1 he.symm), ih h.2]

theorem mem_keys_mdel {K V : Type} [DecidableEq K] {l : List (K × V)} {k a : K}
    (h : a ∈ (mdel l k).map Prod.fst) : a ∈ l.map Prod.fst := by
  induction l with
  | nil => simp [mdel] at h
  | cons e rest ih =>
    simp only [mdel] at h
    split at h
    · exact List.mem_cons_of_mem _ (ih h)
    · simp only [List.map_cons, List.mem_cons] at h ⊢
      exact h.imp id ih

theorem not_mem_keys_mdel {K V : Type} [DecidableEq K] (l : List (K × V)) (k : K) :
    k ∉ (mdel l k).map Prod.fst := by
  induction l with
  | nil => simp [mdel]
  | cons e rest ih =>
    simp only [mdel]
    split
    · exact ih
    · simp only [List.map_cons, List.mem_cons]
      rintro (rfl | hm)
      · simp_all
      · exact ih hm

theorem nodup_keys_mdel {K V : Type} [DecidableEq K] {l : List (K × V)} (k : K)
    (h : (l.map Prod.fst).Nodup) : ((mdel l k).map Prod.fst).Nodup := by
  induction l with
  | nil => simp [mdel]
  | cons e rest ih =>
    simp only [List.map_cons, List.nodup_cons] at h
    simp only [mdel]
    split
    · exact ih h.2
    · simp only [List.map_cons, List.nodup_cons]
      exact ⟨fun hm => h.1 (mem_keys_mdel hm), ih h.2⟩

theorem nodup_keys_mset {K V : Type} [DecidableEq K] {l : List (K × V)} (k : K) (v : V)
    (h : (l.map Prod.fst).Nodup) : ((mset l k v).map Prod.fst).Nodup := by
  simp only [mset, List.map_cons, List.nodup_cons]
  exact ⟨not_mem_keys_mdel l k, nodup_keys_mdel k h⟩

theorem mget_mset_self {K V : Type} [DecidableEq K] (l : List (K × V)) (k : K) (v : V) :
    mget (mset l k v) k = some v := by
  simp [mset, mget]

theorem mget_mdel_ne {K V : Type} [DecidableEq K] {l : List (K × V)} {k k' : K}
    (h : k' ≠ k) : mget (mdel l k) k' = mget l k' := by
  induction l with
  | nil => rfl
  | cons e rest ih =>
    simp only [mdel, mget]
    by_cases he : e.1 = k
    · rw [if_pos he, ih, if_neg (by rw [he]; exact fun hh => h hh.symm)]
    · rw [if_neg he]
      simp only [mget]
      split <;> simp [ih]

theorem mget_mset_ne {K V : Type} [DecidableEq K] {l : List (K × V)} {k k' : K} (v : V)
    (h : k' ≠ k) : mget (mset l k v) k' = mget l k' := by
  simp only [mset, mget]
  rw [if_neg (fun hh : k = k' => h hh.symm)]
  exact mget_mdel_ne h

theorem mgetD_mset_self {K V : Type} [DecidableEq K] (l : List (K × V)) (k : K) (v d : V) :
    mgetD (mset l k v) k d = v := by
  simp [mgetD, mget_mset_self]

theorem mgetD_mset_ne {K V : Type} [DecidableEq K] {l : List (K × V)} {k k' : K} (v d : V)
    (h : k' ≠ k) : mgetD (mset l k v) k' d = mgetD l k' d := by
  simp [mgetD, mget_mset_ne v h]

theorem mgetD_mdel_self {K V : Type} [DecidableEq K] (l : List (K × V)) (k : K) (d : V) :
    mgetD (mdel l k) k d = d := by
  simp [mgetD, mget_eq_none (not_mem_keys_mdel l k)]

theorem mgetD_mdel_ne {K V : Type} [DecidableEq K] {l : List (K × V)} {k k' : K} (d : V)
    (h : k' ≠ k) : mgetD (mdel l k) k' d = mgetD l k' d := by
  simp [mgetD, mget_mdel_ne h]

theorem sumBy_mdel {K : Type} [DecidableEq K] (p : K → Prop) [DecidablePred p]
    {l : List (K × Int)} (k : K)
    (h : (l.map Prod.fst).Nodup) :
    sumBy p (mdel l k) = sumBy p l - (if p k then mgetD l k 0 else 0) := by
  induction l with
  | nil => simp [mdel, sumBy_nil, mgetD, mget]
  | cons e rest ih =>
    simp only [List.map_cons, List.nodup_cons] at h
    simp only [mdel]
    by_cases he : e.1 = k
    · rw [if_pos he, mdel_eq_self (he ▸ h.1), sumBy_cons]
      have hg : mgetD (e :: rest) k 0 = e.2 := by simp [mgetD, mget, he]
      rw [hg, ← he]
      split <;> omega
    · rw [if_neg he, sumBy_cons, sumBy_cons, ih h.2]
      have hg : mgetD (e :: rest) k 0 = mgetD rest k 0 := by simp [mgetD, mget, he]
      rw [hg]
      omega

theorem sumBy_mset {K : Type} [DecidableEq K] (p : K → Prop) [DecidablePred p]
    {l : List (K × Int)}
    (k : K) (v : Int) (h : (l.map Prod.fst).Nodup) :
    sumBy p (mset l k v) = sumBy p l + (if p k then v - mgetD l k 0 else 0) := by
  simp only [mset, sumBy_cons, sumBy_mdel p k h]
  split <;> omega

/-- Script hashes (UInt160 addresses) are abstracted as naturals. -/
abbrev Addr := Nat

/-- Token ids (32-byte class ids, sha256 of a model id) are abstracted as
naturals; the sha256 derivation is carried as an explicit injective-free
parameter threaded through the operations that take a model id. -/
abbrev TokenId := Nat

/-- Model identifiers (byte strings in the source) are abstracted as naturals. -/
abbrev ModelId := Nat

/-- Error kinds, one per distinct assert in the contract; a failed assert
aborts the whole invocation, rolling back every write. -/
inductive Err where
  | invalidInput
  | paused
  | notAuthorized
  | amountTooSmall
  | reentrancy
  | priceUnset
  | insufficientBalance
  | insufficientReserve
  | belowFloor
  | dust
  | notRegistered
  | lockNotExpired
  | noLock
  | callbackFailed
  | gasTransferFailed
  deriving DecidableEq, Repr

/-- Lock record stored under PREFIX_LOCK {owner}{token_id}
(source lines 1054-1060). -/
structure LockData where
  amount : Int
  unlockBlock : Int
  createdAt : Int
  deriving DecidableEq, Repr

/-- Provider profile stored under PREFIX_PROVIDER (source lines 891-900). -/
structure Provider where
  name : String
  endpoint : String
  geoRegion : String
  providerType : String
  reputationScore : Int
  totalEarned : Int
  registeredAt : Nat
  active : Bool
  deriving DecidableEq, Repr

/-- Token metadata stored under PREFIX_TOKEN_DATA
(source lines 432-441 and 1318-1331). -/
structure TokenData where
  name : String
  modelId : ModelId
  avgQualityScore : Int
  totalMints : Int
  createdAt : Nat
  deriving DecidableEq, Repr

/-- Observable effects of an invocation, used to state the ordering of
internal state writes relative to external native-contract calls. -/
inductive Event where
  | burnTokens (owner : Addr) (tokenId : TokenId) (amount : Int)
  | reserveDebit (amount : Int)
  | externalGasTransfer (dst : Addr) (amount : Int)
  deriving DecidableEq, Repr

/-- Transaction context supplied by the Neo runtime: calling script hash,
witness set, current block index, which addresses resolve to deployed
contracts, and whether the external calls issued by this invocation succeed. -/
structure Ctx where
  caller : Addr
  witnesses : List Addr
  height : Nat
  contracts : List Addr
  callbackOk : Bool
  extTransferOk : Bool
  deriving DecidableEq, Repr

/-- Contract storage, one field per storage-prefix family of the source. -/
structure State where
  bal : List ((Addr × TokenId) × Int)
  supply : List (TokenId × Int)
  tokenData : List (TokenId × TokenData)
  acctTokens : List (Addr × List TokenId)
  providers : List (Addr × Provider)
  providerList : List Addr
  approved : List ((Addr × TokenId × Addr) × Int)
  oracle : List (Addr × Bool)
  minter : List (Addr × Bool)
  lockRec : List ((Addr × TokenId) × LockData)
  locked : List ((Addr × TokenId) × Int)
  admin : Addr
  paused : Bool
  totalSupply : Int
  reentrancy : Bool
  governance : Option Addr
  price : List (TokenId × Int)
  gasReserve : Int
  swapFeeBps : Int
  priceHistory : List ((TokenId × Nat) × Int)
  priceOracle : List (TokenId × Addr)
  minPrice : List (TokenId × Int)
  deriving DecidableEq, Repr

/-- ONE_TOKEN (source line 156): 1.0 COMPUTE in base units. -/
def ONE_TOKEN : Int := 100000000

/-- MIN_QUALITY_SCORE (source line 160). -/
def MIN_QUALITY_SCORE : Int := 50

/-- MAX_QUALITY_SCORE (source line 161). -/
def MAX_QUALITY_SCORE : Int := 100

/-- MIN_LOCK_BLOCKS (source line 164). -/
def MIN_LOCK_BLOCKS : Int := 100

/-- MAX_LOCK_BLOCKS (source line 165). -/
def MAX_LOCK_BLOCKS : Int := 2102400

/-- DEFAULT_SWAP_FEE_BPS (source line 168). -/
def DEFAULT_SWAP_FEE_BPS : Int := 30

/-- MAX_SWAP_FEE_BPS (source line 169). -/
def MAX_SWAP_FEE_BPS : Int := 500

/-- MIN_SWAP_AMOUNT (source line 170). -/
def MIN_SWAP_AMOUNT : Int := 1000

/-- Distinguished script hash of the native GAS contract. -/
def GAS_SCRIPT : Addr := 1000000007

/-- check_witness of the Neo runtime: whether the transaction is signed by
the address. -/
def checkWitness (ctx : Ctx) (a : Addr) : Bool :=
  ctx.witnesses.contains a

/-- Helper _is_admin (source lines 1391-1394). -/
def isAdmin (s : State) (a : Addr) : Bool :=
  s.admin == a

/-- Helper _is_governance (source lines 1397-1400). -/
def isGovernance (s : State) (a : Addr) : Bool :=
  s.governance == some a

/-- Helper _is_oracle (source lines 1403-1408). -/
def isOracle (s : State) (a : Addr) : Bool :=
  mgetD s.oracle a false

/-- Helper _is_minter (source lines 1419-1424). -/
def isMinter (s : State) (a : Addr) : Bool :=
  mgetD s.minter a false

/-- Helper _is_approved (source lines 1435-1441): the allowance entry exists
and is at least the requested amount. -/
def isApproved (s : State) (owner : Addr) (tokenId : TokenId) (spender : Addr)
    (amount : Int) : Bool :=
  match mget s.approved (owner, tokenId, spender) with
  | none => false
  | some v => amount ≤ v

/-- Helper _get_balance (source lines 1247-1252). -/
def getBalance (s : State) (owner : Addr) (tokenId : TokenId) : Int :=
  mgetD s.bal (owner, tokenId) 0

/-- Helper _get_locked_amount (source lines 1273-1277). -/
def getLockedAmount (s : State) (owner : Addr) (tokenId : TokenId) : Int :=
  mgetD s.locked (owner, tokenId) 0

/-- Helper _add_token_to_account (source lines 1287-1291). -/
def addTokenToAccount (l : List (Addr × List TokenId)) (owner : Addr)
    (tokenId : TokenId) : List (Addr × List TokenId) :=
  let tokens := mgetD l owner []
  if tokenId ∈ tokens then l else mset l owner (tokens ++ [tokenId])

/-- Helper _remove_token_from_account (source lines 1294-1301). -/
def removeTokenFromAccount (l : List (Addr × List TokenId)) (owner : Addr)
    (tokenId : TokenId) : List (Addr × List TokenId) :=
  let tokens := mgetD l owner []
  if tokenId ∈ tokens then
    let tokens := tokens.erase tokenId
    if tokens.length > 0 then mset l owner tokens else mdel l owner
  else l

/-- Helper _add_to_provider_list (source lines 1304-1312). -/
def addToProviderList (l : List Addr) (provider : Addr) : List Addr :=
  if l.isEmpty then [provider]
  else if provider ∈ l then l else l ++ [provider]

/-- Helper _increase_balance (source lines 1255-1259): unconditional put of
current + amount, then index maintenance. -/
def increaseBalance (s : State) (owner : Addr) (tokenId : TokenId) (amount : Int) :
    State :=
  { s with bal := mset s.bal (owner, tokenId) (getBalance s owner tokenId + amount),
           acctTokens := addTokenToAccount s.acctTokens owner tokenId }

/-- Helper _decrease_balance (source lines 1262-1270): keeps the entry when the
new balance is positive, otherwise deletes it and updates the owner index
(sparse storage: zero is represented by absence). -/
def decreaseBalance (s : State) (owner : Addr) (tokenId : TokenId) (amount : Int) :
    State :=
  { s with
    bal :=
      if getBalance s owner tokenId - amount > 0 then
        mset s.bal (owner, tokenId) (getBalance s owner tokenId - amount)
      else mdel s.bal (owner, tokenId),
    acctTokens :=
      if getBalance s owner tokenId - amount > 0 then s.acctTokens
      else removeTokenFromAccount s.acctTokens owner tokenId }

/-- Token-metadata update performed at the start of _mint_internal
(source lines 1317-1331): lazily creates the record with total_mints 1,
or increments total_mints. -/
def bumpTokenData (s : State) (tokenId : TokenId) (modelId : ModelId)
    (height : Nat) : State :=
  let td : TokenData :=
    match mget s.tokenData tokenId with
    | none =>
        { name := "Compute: " ++ toString modelId, modelId := modelId,
          avgQualityScore := 75, totalMints := 1, createdAt := height }
    | some old => { old with totalMints := old.totalMints + 1 }
  { s with tokenData := mset s.tokenData tokenId td }

/-- Helper _mint_internal (source lines 1315-1353): updates token data,
credits the recipient, and raises the per-class and global supplies. -/
def mintInternal (s : State) (dst : Addr) (tokenId : TokenId) (amount : Int)
    (modelId : ModelId) (height : Nat) : State :=
  let s1 := bumpTokenData s tokenId modelId height
  let s2 := increaseBalance s1 dst tokenId amount
  { s2 with supply := mset s2.supply tokenId (mgetD s2.supply tokenId 0 + amount),
            totalSupply := s2.totalSupply + amount }

/-- Helper _burn_internal (source lines 1356-1366): debits the owner and
lowers the per-class and global supplies. -/
def burnInternal (s : State) (owner : Addr) (tokenId : TokenId) (amount : Int) :
    State :=
  let s1 := decreaseBalance s owner tokenId amount
  { s1 with supply := mset s1.supply tokenId (mgetD s1.supply tokenId 0 - amount),
            totalSupply := s1.totalSupply - amount }

/-- Operation transfer (source lines 797-842).  Input asserts, pause check,
witness-or-approval authorization, available-balance check, debit/credit, and
the pay-and-execute callback when the recipient is a contract (a failing
callback aborts the whole transfer). -/
def transfer (ctx : Ctx) (s : State) (fromAddr dst : Addr) (amount : Int)
    (tokenId : TokenId) : Except Err State :=
  if ¬(amount > 0) then .error .invalidInput
  else if s.paused then .error .paused
  else if ¬(checkWitness ctx fromAddr ||
            isApproved s fromAddr tokenId ctx.caller amount) then .error .notAuthorized
  else
    let currentBalance := getBalance s fromAddr tokenId
    let lockedAmount := getLockedAmount s fromAddr tokenId
    if ¬(currentBalance - lockedAmount ≥ amount) then .error .insufficientBalance
    else
      let s1 := decreaseBalance s fromAddr tokenId amount
      let s2 := increaseBalance s1 dst tokenId amount
      if ctx.contracts.contains dst && ¬ctx.callbackOk then .error .callbackFailed
      else .ok s2

/-- Operation approve (source lines 845-859).  Witness check only; a positive
amount is stored, otherwise the entry is deleted.  The source performs no
pause check here. -/
def approve (ctx : Ctx) (s : State) (owner spender : Addr) (amount : Int)
    (tokenId : TokenId) : Except Err State :=
  if ¬checkWitness ctx owner then .error .notAuthorized
  else if amount > 0 then
    .ok { s with approved := mset s.approved (owner, tokenId, spender) amount }
  else
    .ok { s with approved := mdel s.approved (owner, tokenId, spender) }

/-- View allowance (source lines 862-870). -/
def allowance (s : State) (owner spender : Addr) (tokenId : TokenId) : Int :=
  mgetD s.approved (owner, tokenId, spender) 0

/-- Operation buy_compute (source lines 510-573).  Pause, minimum amount and
reentrancy checks, price lookup, fee and mint arithmetic with floor division,
dust rejection, mint to the buyer, and credit of the full gas_amount to the
reserve. -/
def buyCompute (hash : ModelId → TokenId) (ctx : Ctx) (s : State) (buyer : Addr)
    (modelId : ModelId) (gasAmount : Int) : Except Err (State × Int) :=
  if s.paused then .error .paused
  else if ¬(gasAmount ≥ MIN_SWAP_AMOUNT) then .error .amountTooSmall
  else if s.reentrancy then .error .reentrancy
  else
    let tokenId := hash modelId
    let price := mgetD s.price tokenId 0
    if ¬(price > 0) then .error .priceUnset
    else
      let feeBps := s.swapFeeBps
      let feeAmount := (gasAmount * feeBps).fdiv 10000
      let netGas := gasAmount - feeAmount
      let computeAmount := (netGas * ONE_TOKEN).fdiv price
      if ¬(computeAmount > 0) then .error .dust
      else
        let s1 := mintInternal s buyer tokenId computeAmount modelId ctx.height
        .ok ({ s1 with gasReserve := s1.gasReserve + gasAmount }, computeAmount)

/-- Operation sell_compute (source lines 576-652).  Pause, witness, minimum
amount and reentrancy checks, available-balance check, price lookup, payout
arithmetic, reserve check, then burn and reserve debit strictly before the
external GAS transfer.  The returned event list records the order of the
internal effects and of the external native-contract call. -/
def sellCompute (hash : ModelId → TokenId) (ctx : Ctx) (s : State) (seller : Addr)
    (modelId : ModelId) (computeAmount : Int) : Except Err (State × List Event × Int) :=
  if s.paused then .error .paused
  else if ¬checkWitness ctx seller then .error .notAuthorized
  else if ¬(computeAmount ≥ MIN_SWAP_AMOUNT) then .error .amountTooSmall
  else if s.reentrancy then .error .reentrancy
  else
    let tokenId := hash modelId
    let currentBalance := getBalance s seller tokenId
    let lockedAmount := getLockedAmount s seller tokenId
    if ¬(currentBalance - lockedAmount ≥ computeAmount) then .error .insufficientBalance
    else
      let price := mgetD s.price tokenId 0
      if ¬(price > 0) then .error .priceUnset
      else
        let grossGas := (computeAmount * price).fdiv ONE_TOKEN
        let feeBps := s.swapFeeBps
        let feeAmount := (grossGas * feeBps).fdiv 10000
        let netGas := grossGas - feeAmount
        if ¬(netGas > 0) then .error .dust
        else
          let currentReserve := s.gasReserve
          if ¬(currentReserve ≥ netGas) then .error .insufficientReserve
          else
            let s1 := burnInternal s seller tokenId computeAmount
            let s2 := { s1 with gasReserve := currentReserve - netGas }
            if ¬ctx.extTransferOk then .error .gasTransferFailed
            else .ok (s2,
              [Event.burnTokens seller tokenId computeAmount,
               Event.reserveDebit netGas,
               Event.externalGasTransfer seller netGas], netGas)

/-- View get_buy_quote (source lines 655-682): pure preview of a buy. -/
def getBuyQuote (hash : ModelId → TokenId) (s : State) (modelId : ModelId)
    (gasAmount : Int) : Int :=
  if gasAmount < MIN_SWAP_AMOUNT then 0
  else
    match mget s.price (hash modelId) with
    | none => 0
    | some price =>
        let feeAmount := (gasAmount * s.swapFeeBps).fdiv 10000
        let netGas := gasAmount - feeAmount
        (netGas * ONE_TOKEN).fdiv price

/-- View get_sell_quote (source lines 685-713): pure preview of a sell. -/
def getSellQuote (hash : ModelId → TokenId) (s : State) (modelId : ModelId)
    (computeAmount : Int) : Int :=
  if computeAmount < MIN_SWAP_AMOUNT then 0
  else
    match mget s.price (hash modelId) with
    | none => 0
    | some price =>
        let grossGas := (computeAmount * price).fdiv ONE_TOKEN
        let feeAmount := (grossGas * s.swapFeeBps).fdiv 10000
        grossGas - feeAmount

/-- Operation lock (source lines 1034-1065).  Pause, witness, amount and
duration checks, available-balance check; a fresh lock is created, an existing
lock is extended additively with the unlock height only ever raised; the
PREFIX_TOTAL_LOCKED mirror is written from the lock record. -/
def lock (ctx : Ctx) (s : State) (owner : Addr) (tokenId : TokenId)
    (amount durationBlocks : Int) : Except Err State :=
  if s.paused then .error .paused
  else if ¬checkWitness ctx owner then .error .notAuthorized
  else if ¬(amount > 0) then .error .invalidInput
  else if ¬(durationBlocks ≥ MIN_LOCK_BLOCKS ∧ durationBlocks ≤ MAX_LOCK_BLOCKS) then
    .error .invalidInput
  else
    let currentBalance := getBalance s owner tokenId
    let currentLocked := getLockedAmount s owner tokenId
    if ¬(currentBalance - currentLocked ≥ amount) then .error .insufficientBalance
    else
      let unlockBlock : Int := (ctx.height : Int) + durationBlocks
      let lockData : LockData :=
        match mget s.lockRec (owner, tokenId) with
        | none =>
            { amount := amount, unlockBlock := unlockBlock,
              createdAt := (ctx.height : Int) }
        | some old =>
            { amount := old.amount + amount,
              unlockBlock := if unlockBlock > old.unlockBlock then unlockBlock
                             else old.unlockBlock,
              createdAt := old.createdAt }
      .ok { s with lockRec := mset s.lockRec (owner, tokenId) lockData,
                   locked := mset s.locked (owner, tokenId) lockData.amount }

/-- Operation unlock (source lines 1068-1085): releases the entire lock once
the current height has reached the unlock height, deleting both records. -/
def unlock (ctx : Ctx) (s : State) (owner : Addr) (tokenId : TokenId) :
    Except Err State :=
  if s.paused then .error .paused
  else if ¬checkWitness ctx owner then .error .notAuthorized
  else
    match mget s.lockRec (owner, tokenId) with
    | none => .error .noLock
    | some lockData =>
        if ¬((ctx.height : Int) ≥ lockData.unlockBlock) then .error .lockNotExpired
        else .ok { s with lockRec := mdel s.lockRec (owner, tokenId),
                          locked := mdel s.locked (owner, tokenId) }

/-- View lockedBalanceOf (source lines 1088-1092). -/
def lockedBalanceOf (s : State) (owner : Addr) (tokenId : TokenId) : Int :=
  getLockedAmount s owner tokenId

/-- View availableBalanceOf (source lines 1095-1101): balance minus locked. -/
def availableBalanceOf (s : State) (owner : Addr) (tokenId : TokenId) : Int :=
  getBalance s owner tokenId - getLockedAmount s owner tokenId

/-- Operation mint (source lines 984-1008): minter-only, quality-score scaled
mint. -/
def mint (hash : ModelId → TokenId) (ctx : Ctx) (s : State) (dst : Addr)
    (modelId : ModelId) (amount qualityScore : Int) : Except Err State :=
  if s.paused then .error .paused
  else if ¬(amount > 0) then .error .invalidInput
  else if ¬(qualityScore ≥ MIN_QUALITY_SCORE ∧ qualityScore ≤ MAX_QUALITY_SCORE) then
    .error .invalidInput
  else if ¬isMinter s ctx.caller then .error .notAuthorized
  else
    let tokenId := hash modelId
    let actualAmount := (amount * qualityScore).fdiv 100
    if ¬(actualAmount > 0) then .error .dust
    else .ok (mintInternal s dst tokenId actualAmount modelId ctx.height)

/-- Operation burn (source lines 1011-1027): witness-authorized burn of
available (unlocked) balance. -/
def burn (ctx : Ctx) (s : State) (owner : Addr) (tokenId : TokenId)
    (amount : Int) : Except Err State :=
  if s.paused then .error .paused
  else if ¬checkWitness ctx owner then .error .notAuthorized
  else if ¬(amount > 0) then .error .invalidInput
  else
    let currentBalance := getBalance s owner tokenId
    let lockedAmount := getLockedAmount s owner tokenId
    if ¬(currentBalance - lockedAmount ≥ amount) then .error .insufficientBalance
    else .ok (burnInternal s owner tokenId amount)

/-- Operation register_provider (source lines 877-905): the calling address
registers itself; re-registration overwrites the profile. -/
def registerProvider (ctx : Ctx) (s : State)
    (name endpoint geoRegion providerType : String) : Except Err State :=
  if s.paused then .error .paused
  else if ¬checkWitness ctx ctx.caller then .error .notAuthorized
  else
    let providerData : Provider :=
      { name := name, endpoint := endpoint, geoRegion := geoRegion,
        providerType := providerType, reputationScore := 50, totalEarned := 0,
        registeredAt := ctx.height, active := true }
    .ok { s with providers := mset s.providers ctx.caller providerData,
                 providerList := addToProviderList s.providerList ctx.caller }

/-- Operation mint_rewards (source lines 908-947): minter-only mint to a
registered provider, incrementing total_earned. -/
def mintRewards (hash : ModelId → TokenId) (ctx : Ctx) (s : State)
    (provider : Addr) (modelId : ModelId) (amount : Int) : Except Err State :=
  if s.paused then .error .paused
  else if ¬(amount > 0) then .error .invalidInput
  else if ¬isMinter s ctx.caller then .error .notAuthorized
  else
    match mget s.providers provider with
    | none => .error .notRegistered
    | some providerData =>
        let tokenId := hash modelId
        let s1 := mintInternal s provider tokenId amount modelId ctx.height
        let pd2 : Provider :=
          { providerData with totalEarned := providerData.totalEarned + amount }
        .ok { s1 with providers := mset s1.providers provider pd2 }

/-- Operation update_provider_reputation (source lines 950-967): pause check,
then the 0-100 range assert, then the oracle-or-governance check; a valid
score is stored unchanged. -/
def updateProviderReputation (ctx : Ctx) (s : State) (provider : Addr)
    (newScore : Int) : Except Err State :=
  if s.paused then .error .paused
  else if ¬(newScore ≥ 0 ∧ newScore ≤ 100) then .error .invalidInput
  else if ¬(isOracle s ctx.caller || isGovernance s ctx.caller) then
    .error .notAuthorized
  else
    match mget s.providers provider with
    | none => .error .notRegistered
    | some providerData =>
        let pd2 : Provider := { providerData with reputationScore := newScore }
        .ok { s with providers := mset s.providers provider pd2 }

/-- Floor check of update_price_oracle (source lines 414-418): with no stored
floor any price passes; with a floor the new price must reach it. -/
def floorCheck (s : State) (tokenId : TokenId) (newPriceGas : Int) : Bool :=
  match mget s.minPrice tokenId with
  | none => true
  | some minPriceV => newPriceGas ≥ minPriceV

/-- Operation update_price_oracle (source lines 379-443): pause check, price
positivity, oracle role, floor check, then price write, history append, oracle
record, and lazy token-data registration. -/
def updatePriceOracle (hash : ModelId → TokenId) (ctx : Ctx) (s : State)
    (modelId : ModelId) (newPriceGas : Int) : Except Err State :=
  if s.paused then .error .paused
  else if ¬(newPriceGas > 0) then .error .invalidInput
  else if ¬isOracle s ctx.caller then .error .notAuthorized
  else
    let tokenId := hash modelId
    if ¬floorCheck s tokenId newPriceGas then .error .belowFloor
    else
      let td : TokenData :=
        { name := "Compute: " ++ toString modelId, modelId := modelId,
          avgQualityScore := 75, totalMints := 0, createdAt := ctx.height }
      .ok { s with price := mset s.price tokenId newPriceGas,
                   priceHistory := mset s.priceHistory (tokenId, ctx.height) newPriceGas,
                   priceOracle := mset s.priceOracle tokenId ctx.caller,
                   tokenData := if mget s.tokenData tokenId = none then
                                  mset s.tokenData tokenId td
                                else s.tokenData }

/-- Operation set_price_floor (source lines 446-469): admin-only; a positive
min_price is stored, zero (or negative) deletes the floor.  The source
performs no pause check and no comparison with the currently stored price. -/
def setPriceFloor (hash : ModelId → TokenId) (ctx : Ctx) (s : State)
    (modelId : ModelId) (minPriceArg : Int) : Except Err State :=
  if ¬isAdmin s ctx.caller then .error .notAuthorized
  else
    let tokenId := hash modelId
    if minPriceArg > 0 then
      .ok { s with minPrice := mset s.minPrice tokenId minPriceArg }
    else
      .ok { s with minPrice := mdel s.minPrice tokenId }

/-- Operation set_swap_fee (source lines 730-739): admin-only fee update in
0..MAX_SWAP_FEE_BPS.  The source performs no pause check. -/
def setSwapFee (ctx : Ctx) (s : State) (feeBps : Int) : Except Err State :=
  if ¬isAdmin s ctx.caller then .error .notAuthorized
  else if ¬(feeBps ≥ 0 ∧ feeBps ≤ MAX_SWAP_FEE_BPS) then .error .invalidInput
  else .ok { s with swapFeeBps := feeBps }

/-- Operation pause (source lines 1108-1115). -/
def pauseOp (ctx : Ctx) (s : State) : Except Err State :=
  if ¬isAdmin s ctx.caller then .error .notAuthorized
  else .ok { s with paused := true }

/-- Operation resume (source lines 1118-1125). -/
def resumeOp (ctx : Ctx) (s : State) : Except Err State :=
  if ¬isAdmin s ctx.caller then .error .notAuthorized
  else .ok { s with paused := false }

/-- Operation update_admin (source lines 1134-1142). -/
def updateAdmin (ctx : Ctx) (s : State) (newAdmin : Addr) : Except Err State :=
  if ¬isAdmin s ctx.caller then .error .notAuthorized
  else .ok { s with admin := newAdmin }

/-- Operation set_governance (source lines 1145-1152). -/
def setGovernance (ctx : Ctx) (s : State) (governanceHash : Addr) : Except Err State :=
  if ¬isAdmin s ctx.caller then .error .notAuthorized
  else .ok { s with governance := some governanceHash }

/-- Operation set_oracle (source lines 1155-1161 and helper 1411-1416). -/
def setOracle (ctx : Ctx) (s : State) (oracleAddr : Addr) (authorized : Bool) :
    Except Err State :=
  if ¬isAdmin s ctx.caller then .error .notAuthorized
  else if authorized then .ok { s with oracle := mset s.oracle oracleAddr true }
  else .ok { s with oracle := mdel s.oracle oracleAddr }

/-- Operation set_minter (source lines 1164-1170 and helper 1427-1432). -/
def setMinter (ctx : Ctx) (s : State) (minterAddr : Addr) (authorized : Bool) :
    Except Err State :=
  if ¬isAdmin s ctx.caller then .error .notAuthorized
  else if authorized then .ok { s with minter := mset s.minter minterAddr true }
  else .ok { s with minter := mdel s.minter minterAddr }

/-- Operation withdraw_gas (source lines 1195-1214): admin-only reserve
withdrawal; the reserve is debited strictly before the external GAS transfer
is issued. -/
def withdrawGas (ctx : Ctx) (s : State) (dst : Addr) (amount : Int) :
    Except Err (State × List Event) :=
  if ¬isAdmin s ctx.caller then .error .notAuthorized
  else if ¬(amount > 0) then .error .invalidInput
  else
    let currentReserve := s.gasReserve
    if ¬(currentReserve ≥ amount) then .error .insufficientReserve
    else
      let s1 := { s with gasReserve := currentReserve - amount }
      if ¬ctx.extTransferOk then .error .gasTransferFailed
      else .ok (s1, [Event.reserveDebit amount,
                     Event.externalGasTransfer dst amount])

/-- Operation onNEP17Payment (source lines 754-790): only the native GAS
contract may call; the amount is credited to the reserve, and when a model id
is attached the credit is reverted and an automatic buy is executed (which
re-adds the amount). -/
def onNEP17Payment (hash : ModelId → TokenId) (ctx : Ctx) (s : State)
    (fromAddr : Addr) (amount : Int) (dataModel : Option ModelId) :
    Except Err State :=
  if ¬(ctx.caller == GAS_SCRIPT) then .error .notAuthorized
  else
    let currentReserve := s.gasReserve
    let s1 := { s with gasReserve := currentReserve + amount }
    match dataModel with
    | none => .ok s1
    | some modelId =>
        let s2 := { s1 with gasReserve := currentReserve }
        (buyCompute hash ctx s2 fromAddr modelId amount).map (·.1)

/-- Genesis state written by _deploy (source lines 192-214): the deployer is
admin, initial oracle, and initial minter; flags and counters are zeroed and
the default swap fee is set. -/
def genesis (deployer : Addr) : State :=
  { bal := [], supply := [], tokenData := [], acctTokens := [], providers := [],
    providerList := [], approved := [], oracle := [(deployer, true)],
    minter := [(deployer, true)], lockRec := [], locked := [],
    admin := deployer, paused := false, totalSupply := 0, reentrancy := false,
    governance := none, price := [], gasReserve := 0,
    swapFeeBps := DEFAULT_SWAP_FEE_BPS, priceHistory := [], priceOracle := [],
    minPrice := [] }

/-- View of the stored per-class supply (tokenSupply, source lines 295-303):
0 when the key is absent. -/
def tokenSupplyView (s : State) (tokenId : TokenId) : Int :=
  mgetD s.supply tokenId 0

/-- View of the stored global supply (totalSupply, source lines 233-240). -/
def totalSupplyView (s : State) : Int :=
  s.totalSupply

/-- Sum of all stored balances of one class across all owners. -/
def classBalanceSum (s : State) (tokenId : TokenId) : Int :=
  sumBy (fun k => k.2 = tokenId) s.bal

/-- Sum of the stored per-class supplies across all classes. -/
def supplySum (s : State) : Int :=
  sumBy (fun _ => True) s.supply

/-- One mutating invocation of the contract: some public operation, under some
transaction context, returning successfully (a failed assert aborts and leaves
no trace, so failures do not produce a step). -/
inductive Step (hash : ModelId → TokenId) : State → State → Prop where
  | ofTransfer (ctx : Ctx) (fromAddr dst : Addr) (amount : Int) (tokenId : TokenId)
      (s s' : State) : transfer ctx s fromAddr dst amount tokenId = .ok s' →
      Step hash s s'
  | ofApprove (ctx : Ctx) (owner spender : Addr) (amount : Int) (tokenId : TokenId)
      (s s' : State) : approve ctx s owner spender amount tokenId = .ok s' →
      Step hash s s'
  | ofLock (ctx : Ctx) (owner : Addr) (tokenId : TokenId) (amount duration : Int)
      (s s' : State) : lock ctx s owner tokenId amount duration = .ok s' →
      Step hash s s'
  | ofUnlock (ctx : Ctx) (owner : Addr) (tokenId : TokenId) (s s' : State) :
      unlock ctx s owner tokenId = .ok s' → Step hash s s'
  | ofBuy (ctx : Ctx) (buyer : Addr) (modelId : ModelId) (gasAmount : Int)
      (s s' : State) (res : Int) :
      buyCompute hash ctx s buyer modelId gasAmount = .ok (s', res) →
      Step hash s s'
  | ofSell (ctx : Ctx) (seller : Addr) (modelId : ModelId) (amount : Int)
      (s s' : State) (evs : List Event) (res : Int) :
      sellCompute hash ctx s seller modelId amount = .ok (s', evs, res) →
      Step hash s s'
  | ofMint (ctx : Ctx) (dst : Addr) (modelId : ModelId) (amount qualityScore : Int)
      (s s' : State) : mint hash ctx s dst modelId amount qualityScore = .ok s' →
      Step hash s s'
  | ofBurn (ctx : Ctx) (owner : Addr) (tokenId : TokenId) (amount : Int)
      (s s' : State) : burn ctx s owner tokenId amount = .ok s' → Step hash s s'
  | ofMintRewards (ctx : Ctx) (provider : Addr) (modelId : ModelId) (amount : Int)
      (s s' : State) : mintRewards hash ctx s provider modelId amount = .ok s' →
      Step hash s s'
  | ofRegisterProvider (ctx : Ctx) (name endpoint geoRegion providerType : String)
      (s s' : State) :
      registerProvider ctx s name endpoint geoRegion providerType = .ok s' →
      Step hash s s'
  | ofUpdateReputation (ctx : Ctx) (provider : Addr) (newScore : Int) (s s' : State) :
      updateProviderReputation ctx s provider newScore = .ok s' → Step hash s s'
  | ofUpdatePrice (ctx : Ctx) (modelId : ModelId) (newPrice : Int) (s s' : State) :
      updatePriceOracle hash ctx s modelId newPrice = .ok s' → Step hash s s'
  | ofSetPriceFloor (ctx : Ctx) (modelId : ModelId) (minPriceArg : Int) (s s' : State) :
      setPriceFloor hash ctx s modelId minPriceArg = .ok s' → Step hash s s'
  | ofSetSwapFee (ctx : Ctx) (feeBps : Int) (s s' : State) :
      setSwapFee ctx s feeBps = .ok s' → Step hash s s'
  | ofPause (ctx : Ctx) (s s' : State) : pauseOp ctx s = .ok s' → Step hash s s'
  | ofResume (ctx : Ctx) (s s' : State) : resumeOp ctx s = .ok s' → Step hash s s'
  | ofUpdateAdmin (ctx : Ctx) (newAdmin : Addr) (s s' : State) :
      updateAdmin ctx s newAdmin = .ok s' → Step hash s s'
  | ofSetGovernance (ctx : Ctx) (governanceHash : Addr) (s s' : State) :
      setGovernance ctx s governanceHash = .ok s' → Step hash s s'
  | ofSetOracle (ctx : Ctx) (oracleAddr : Addr) (authorized : Bool) (s s' : State) :
      setOracle ctx s oracleAddr authorized = .ok s' → Step hash s s'
  | ofSetMinter (ctx : Ctx) (minterAddr : Addr) (authorized : Bool) (s s' : State) :
      setMinter ctx s minterAddr authorized = .ok s' → Step hash s s'
  | ofWithdrawGas (ctx : Ctx) (dst : Addr) (amount : Int) (s s' : State)
      (evs : List Event) : withdrawGas ctx s dst amount = .ok (s', evs) →
      Step hash s s'
  | ofOnNEP17Payment (ctx : Ctx) (fromAddr : Addr) (amount : Int)
      (dataModel : Option ModelId) (s s' : State) :
      onNEP17Payment hash ctx s fromAddr amount dataModel = .ok s' →
      Step hash s s'

/-- States reachable from a deployed genesis state by any sequence of
successful invocations. -/
inductive Reachable (hash : ModelId → TokenId) : State → Prop where
  | deployed (deployer : Addr) : Reachable hash (genesis deployer)
  | step {s s' : State} : Reachable hash s → Step hash s s' → Reachable hash s'

/-- Inductive invariant tying balances, supplies, and locks together: key sets
are duplicate-free, balances and locked amounts are non-negative, per-class
balance sums match the stored class supplies, the class supplies sum to the
stored total supply, locked never exceeds balance, the PREFIX_TOTAL_LOCKED
mirror agrees with the lock record, and every stored price is positive. -/
structure Inv (s : State) : Prop where
  balNodup : (s.bal.map Prod.fst).Nodup
  supNodup : (s.supply.map Prod.fst).Nodup
  balNonneg : ∀ k, 0 ≤ mgetD s.bal k 0
  lockNonneg : ∀ k, 0 ≤ mgetD s.locked k 0
  classConserve : ∀ t, classBalanceSum s t = mgetD s.supply t 0
  totalConserve : supplySum s = s.totalSupply
  lockLeBal : ∀ k, mgetD s.locked k 0 ≤ mgetD s.bal k 0
  lockSync : ∀ k, mgetD s.locked k 0 =
    Option.elim (mget s.lockRec k) 0 (fun ld => ld.amount)
  pricePos : ∀ t p, mget s.price t = some p → 0 < p

/-- Genesis establishes the invariant. -/
theorem inv_genesis (deployer : Addr) : Inv (genesis deployer) := by
  constructor <;>
    simp [genesis, classBalanceSum, supplySum, sumBy, mgetD, mget]

/-- Invariant transport along equality of the ledger-relevant fields, used for
operations that touch none of them. -/
theorem inv_of_fields {s s' : State} (h : Inv s)
    (hb : s'.bal = s.bal) (hsup : s'.supply = s.supply)
    (hts : s'.totalSupply = s.totalSupply) (hlk : s'.locked = s.locked)
    (hlr : s'.lockRec = s.lockRec) (hp : s'.price = s.price) : Inv s' := by
  constructor
  · rw [hb]; exact h.balNodup
  · rw [hsup]; exact h.supNodup
  · intro k; rw [hb]; exact h.balNonneg k
  · intro k; rw [hlk]; exact h.lockNonneg k
  · intro t; unfold classBalanceSum; rw [hb, hsup]; exact h.classConserve t
  · unfold supplySum; rw [hsup, hts]; exact h.totalConserve
  · intro k; rw [hlk, hb]; exact h.lockLeBal k
  · intro k; rw [hlk, hlr]; exact h.lockSync k
  · intro t p hp2; rw [hp] at hp2; exact h.pricePos t p hp2

theorem increaseBalance_supply (s : State) (o : Addr) (t : TokenId) (a : Int) :
    (increaseBalance s o t a).supply = s.supply := rfl

theorem increaseBalance_totalSupply (s : State) (o : Addr) (t : TokenId) (a : Int) :
    (increaseBalance s o t a).totalSupply = s.totalSupply := rfl

theorem increaseBalance_locked (s : State) (o : Addr) (t : TokenId) (a : Int) :
    (increaseBalance s o t a).locked = s.locked := rfl

theorem increaseBalance_lockRec (s : State) (o : Addr) (t : TokenId) (a : Int) :
    (increaseBalance s o t a).lockRec = s.lockRec := rfl

theorem increaseBalance_price (s : State) (o : Addr) (t : TokenId) (a : Int) :
    (increaseBalance s o t a).price = s.price := rfl

theorem decreaseBalance_supply (s : State) (o : Addr) (t : TokenId) (a : Int) :
    (decreaseBalance s o t a).supply = s.supply := rfl

theorem decreaseBalance_totalSupply (s : State) (o : Addr) (t : TokenId) (a : Int) :
    (decreaseBalance s o t a).totalSupply = s.totalSupply := rfl

theorem decreaseBalance_locked (s : State) (o : Addr) (t : TokenId) (a : Int) :
    (decreaseBalance s o t a).locked = s.locked := rfl

theorem decreaseBalance_lockRec (s : State) (o : Addr) (t : TokenId) (a : Int) :
    (decreaseBalance s o t a).lockRec = s.lockRec := rfl

theorem decreaseBalance_price (s : State) (o : Addr) (t : TokenId) (a : Int) :
    (decreaseBalance s o t a).price = s.price := rfl

theorem bal_decreaseBalance (s : State) (o : Addr) (t : TokenId) (a : Int) :
    (decreaseBalance s o t a).bal =
      if mgetD s.bal (o, t) 0 - a > 0 then
        mset s.bal (o, t) (mgetD s.bal (o, t) 0 - a)
      else mdel s.bal (o, t) := rfl

theorem nodup_bal_increase {s : State} (o : Addr) (t : TokenId) (a : Int)
    (h : (s.bal.map Prod.fst).Nodup) :
    ((increaseBalance s o t a).bal.map Prod.fst).Nodup :=
  nodup_keys_mset _ _ h

theorem nodup_bal_decrease {s : State} (o : Addr) (t : TokenId) (a : Int)
    (h : (s.bal.map Prod.fst).Nodup) :
    ((decreaseBalance s o t a).bal.map Prod.fst).Nodup := by
  rw [bal_decreaseBalance]
  split
  · exact nodup_keys_mset _ _ h
  · exact nodup_keys_mdel _ h

theorem mgetD_bal_increase (s : State) (o : Addr) (t : TokenId) (a : Int)
    (k : Addr × TokenId) :
    mgetD (increaseBalance s o t a).bal k 0 =
      mgetD s.bal k 0 + (if k = (o, t) then a else 0) := by
  by_cases hk : k = (o, t)
  · subst hk
    simp [increaseBalance, mgetD_mset_self, getBalance]
  · simp only [increaseBalance]
    rw [mgetD_mset_ne _ _ hk, if_neg hk]
    omega

theorem mgetD_bal_decrease {s : State} {o : Addr} {t : TokenId} {a : Int}
    (hle : a ≤ mgetD s.bal (o, t) 0) (k : Addr × TokenId) :
    mgetD (decreaseBalance s o t a).bal k 0 =
      mgetD s.bal k 0 - (if k = (o, t) then a else 0) := by
  rw [bal_decreaseBalance]
  split
  next hpos =>
    by_cases hk : k = (o, t)
    · subst hk
      rw [mgetD_mset_self, if_pos rfl]
    · rw [mgetD_mset_ne _ _ hk, if_neg hk]
      omega
  next hneg =>
    rw [not_lt] at hneg
    by_cases hk : k = (o, t)
    · subst hk
      rw [mgetD_mdel_self, if_pos rfl]
      omega
    · rw [mgetD_mdel_ne _ hk, if_neg hk]
      omega

theorem sumBy_bal_increase (p : (Addr × TokenId) → Prop) [DecidablePred p]
    {s : State} (o : Addr)
    (t : TokenId) (a : Int) (h : (s.bal.map Prod.fst).Nodup) :
    sumBy p (increaseBalance s o t a).bal =
      sumBy p s.bal + (if p (o, t) then a else 0) := by
  simp only [increaseBalance]
  rw [sumBy_mset p _ _ h]
  simp only [getBalance]
  split <;> omega

theorem sumBy_bal_decrease (p : (Addr × TokenId) → Prop) [DecidablePred p]
    {s : State} {o : Addr}
    {t : TokenId} {a : Int} (h : (s.bal.map Prod.fst).Nodup)
    (hle : a ≤ mgetD s.bal (o, t) 0) :
    sumBy p (decreaseBalance s o t a).bal =
      sumBy p s.bal - (if p (o, t) then a else 0) := by
  rw [bal_decreaseBalance]
  split
  next hpos =>
    rw [sumBy_mset p _ _ h]
    split <;> omega
  next hneg =>
    rw [not_lt] at hneg
    rw [sumBy_mdel p _ h]
    have hz : mgetD s.bal (o, t) 0 = a := by omega
    rw [hz]

theorem mintInternal_bal (s : State) (dst : Addr) (t : TokenId) (a : Int)
    (m : ModelId) (hh : Nat) :
    (mintInternal s dst t a m hh).bal =
      mset s.bal (dst, t) (mgetD s.bal (dst, t) 0 + a) := rfl

theorem mintInternal_supply (s : State) (dst : Addr) (t : TokenId) (a : Int)
    (m : ModelId) (hh : Nat) :
    (mintInternal s dst t a m hh).supply =
      mset s.supply t (mgetD s.supply t 0 + a) := rfl

theorem mintInternal_totalSupply (s : State) (dst : Addr) (t : TokenId) (a : Int)
    (m : ModelId) (hh : Nat) :
    (mintInternal s dst t a m hh).totalSupply = s.totalSupply + a := rfl

theorem mintInternal_locked (s : State) (dst : Addr) (t : TokenId) (a : Int)
    (m : ModelId) (hh : Nat) : (mintInternal s dst t a m hh).locked = s.locked := rfl

theorem mintInternal_lockRec (s : State) (dst : Addr) (t : TokenId) (a : Int)
    (m : ModelId) (hh : Nat) : (mintInternal s dst t a m hh).lockRec = s.lockRec := rfl

theorem mintInternal_price (s : State) (dst : Addr) (t : TokenId) (a : Int)
    (m : ModelId) (hh : Nat) : (mintInternal s dst t a m hh).price = s.price := rfl

theorem burnInternal_bal (s : State) (o : Addr) (t : TokenId) (a : Int) :
    (burnInternal s o t a).bal = (decreaseBalance s o t a).bal := rfl

theorem burnInternal_supply (s : State) (o : Addr) (t : TokenId) (a : Int) :
    (burnInternal s o t a).supply = mset s.supply t (mgetD s.supply t 0 - a) := by
  show mset (decreaseBalance s o t a).supply t
      (mgetD (decreaseBalance s o t a).supply t 0 - a) = _
  rw [decreaseBalance_supply]

theorem burnInternal_totalSupply (s : State) (o : Addr) (t : TokenId) (a : Int) :
    (burnInternal s o t a).totalSupply = s.totalSupply - a := by
  show (decreaseBalance s o t a).totalSupply - a = _
  rw [decreaseBalance_totalSupply]

theorem burnInternal_locked (s : State) (o : Addr) (t : TokenId) (a : Int) :
    (burnInternal s o t a).locked = s.locked := decreaseBalance_locked s o t a

theorem burnInternal_lockRec (s : State) (o : Addr) (t : TokenId) (a : Int) :
    (burnInternal s o t a).lockRec = s.lockRec := decreaseBalance_lockRec s o t a

theorem burnInternal_price (s : State) (o : Addr) (t : TokenId) (a : Int) :
    (burnInternal s o t a).price = s.price := decreaseBalance_price s o t a

/-- Preservation of the invariant by _mint_internal with a positive amount. -/
theorem inv_mintInternal {s : State} {a : Int} (dst : Addr) (t : TokenId)
    (m : ModelId) (hh : Nat) (h : Inv s) (ha : 0 < a) :
    Inv (mintInternal s dst t a m hh) := by
  constructor
  · rw [mintInternal_bal]
    exact nodup_keys_mset _ _ h.balNodup
  · rw [mintInternal_supply]
    exact nodup_keys_mset _ _ h.supNodup
  · intro k
    rw [mintInternal_bal]
    by_cases hk : k = (dst, t)
    · subst hk
      rw [mgetD_mset_self]
      have := h.balNonneg (dst, t)
      omega
    · rw [mgetD_mset_ne _ _ hk]
      exact h.balNonneg k
  · intro k
    rw [mintInternal_locked]
    exact h.lockNonneg k
  · intro t'
    have hc := h.classConserve t'
    unfold classBalanceSum at hc ⊢
    rw [mintInternal_bal, mintInternal_supply, sumBy_mset _ _ _ h.balNodup]
    by_cases ht : t = t'
    · subst ht
      rw [mgetD_mset_self, if_pos rfl]
      omega
    · rw [mgetD_mset_ne _ _ (fun he => ht he.symm), if_neg ht]
      omega
  · have hc := h.totalConserve
    unfold supplySum at hc ⊢
    rw [mintInternal_supply, mintInternal_totalSupply, sumBy_mset _ _ _ h.supNodup,
      if_pos trivial]
    omega
  · intro k
    rw [mintInternal_locked, mintInternal_bal]
    by_cases hk : k = (dst, t)
    · subst hk
      rw [mgetD_mset_self]
      have := h.lockLeBal (dst, t)
      omega
    · rw [mgetD_mset_ne _ _ hk]
      exact h.lockLeBal k
  · intro k
    rw [mintInternal_locked, mintInternal_lockRec]
    exact h.lockSync k
  · intro t' p hp
    rw [mintInternal_price] at hp
    exact h.pricePos t' p hp

/-- Preservation of the invariant by _burn_internal when the burned amount
does not exceed the available (unlocked) balance. -/
theorem inv_burnInternal {s : State} {a : Int} (o : Addr) (t : TokenId)
    (h : Inv s)
    (hav : a ≤ mgetD s.bal (o, t) 0 - mgetD s.locked (o, t) 0) :
    Inv (burnInternal s o t a) := by
  have hlk := h.lockNonneg (o, t)
  have hle : a ≤ mgetD s.bal (o, t) 0 := by omega
  constructor
  · rw [burnInternal_bal]
    exact nodup_bal_decrease o t a h.balNodup
  · rw [burnInternal_supply]
    exact nodup_keys_mset _ _ h.supNodup
  · intro k
    rw [burnInternal_bal, mgetD_bal_decrease hle k]
    have := h.balNonneg k
    have hl2 := h.lockNonneg k
    have := h.lockLeBal k
    by_cases hk : k = (o, t)
    · subst hk; rw [if_pos rfl]; omega
    · rw [if_neg hk]; omega
  · intro k
    rw [burnInternal_locked]
    exact h.lockNonneg k
  · intro t'
    have hc := h.classConserve t'
    unfold classBalanceSum at hc ⊢
    rw [burnInternal_bal, burnInternal_supply,
      sumBy_bal_decrease _ h.balNodup hle]
    by_cases ht : t = t'
    · subst ht
      rw [mgetD_mset_self, if_pos rfl]
      omega
    · rw [mgetD_mset_ne _ _ (fun he => ht he.symm), if_neg ht]
      omega
  · have hc := h.totalConserve
    unfold supplySum at hc ⊢
    rw [burnInternal_supply, burnInternal_totalSupply, sumBy_mset _ _ _ h.supNodup,
      if_pos trivial]
    omega
  · intro k
    rw [burnInternal_locked, burnInternal_bal, mgetD_bal_decrease hle k]
    have := h.lockLeBal k
    have := h.lockNonneg k
    by_cases hk : k = (o, t)
    · subst hk
      rw [if_pos rfl]
      omega
    · rw [if_neg hk]
      omega
  · intro k
    rw [burnInternal_locked, burnInternal_lockRec]
    exact h.lockSync k
  · intro t' p hp
    rw [burnInternal_price] at hp
    exact h.pricePos t' p hp

/-- Preservation of the invariant by a successful transfer. -/
theorem inv_transfer {ctx : Ctx} {s s' : State} {fromAddr dst : Addr}
    {amount : Int} {tokenId : TokenId} (h : Inv s)
    (hs : transfer ctx s fromAddr dst amount tokenId = .ok s') : Inv s' := by
  simp only [transfer] at hs
  split_ifs at hs with h1 h2 h3 h4 h5
  injection hs with hs2
  subst hs2
  have hlk := h.lockNonneg (fromAddr, tokenId)
  have hav : amount ≤ mgetD s.bal (fromAddr, tokenId) 0 := by
    simp only [getBalance, getLockedAmount] at h4
    omega
  constructor
  · exact nodup_bal_increase _ _ _ (nodup_bal_decrease _ _ _ h.balNodup)
  · rw [increaseBalance_supply, decreaseBalance_supply]
    exact h.supNodup
  · intro k
    rw [mgetD_bal_increase, mgetD_bal_decrease hav k]
    have hb := h.balNonneg k
    have hl := h.lockLeBal k
    have hl0 := h.lockNonneg k
    simp only [getBalance, getLockedAmount] at h4
    by_cases hk1 : k = (fromAddr, tokenId)
    · subst hk1
      rw [if_pos rfl]
      split_ifs <;> omega
    · rw [if_neg hk1]
      split_ifs <;> omega
  · intro k
    rw [increaseBalance_locked, decreaseBalance_locked]
    exact h.lockNonneg k
  · intro t'
    have hc := h.classConserve t'
    unfold classBalanceSum at hc ⊢
    rw [increaseBalance_supply, decreaseBalance_supply,
      sumBy_bal_increase _ _ _ _ (nodup_bal_decrease _ _ _ h.balNodup),
      sumBy_bal_decrease _ h.balNodup hav]
    by_cases ht : tokenId = t' <;> simp [ht] <;> omega
  · have hc := h.totalConserve
    unfold supplySum at hc ⊢
    rw [increaseBalance_supply, decreaseBalance_supply,
      increaseBalance_totalSupply, decreaseBalance_totalSupply]
    exact hc
  · intro k
    rw [increaseBalance_locked, decreaseBalance_locked,
      mgetD_bal_increase, mgetD_bal_decrease hav k]
    have hl := h.lockLeBal k
    have hl0 := h.lockNonneg k
    simp only [getBalance, getLockedAmount] at h4
    by_cases hk1 : k = (fromAddr, tokenId)
    · subst hk1
      rw [if_pos rfl]
      split_ifs <;> omega
    · rw [if_neg hk1]
      split_ifs <;> omega
  · intro k
    rw [increaseBalance_locked, decreaseBalance_locked,
      increaseBalance_lockRec, decreaseBalance_lockRec]
    exact h.lockSync k
  · intro t' p hp
    rw [increaseBalance_price, decreaseBalance_price] at hp
    exact h.pricePos t' p hp

/-- Preservation of the invariant by a successful lock. -/
theorem inv_lock {ctx : Ctx} {s s' : State} {owner : Addr} {tokenId : TokenId}
    {amount duration : Int} (h : Inv s)
    (hs : lock ctx s owner tokenId amount duration = .ok s') : Inv s' := by
  simp only [lock] at hs
  split_ifs at hs with h1 h2 h3 h4 h5
  injection hs with hs2
  subst hs2
  simp only [getBalance, getLockedAmount] at h5
  have hsync := h.lockSync (owner, tokenId)
  have hln := h.lockNonneg (owner, tokenId)
  constructor
  · exact h.balNodup
  · exact h.supNodup
  · exact h.balNonneg
  · intro k
    by_cases hk : k = (owner, tokenId)
    · subst hk
      rw [mgetD_mset_self]
      cases hrec : mget s.lockRec (owner, tokenId) with
      | none =>
          rw [hrec] at hsync
          simp only [hrec]
          omega
      | some old =>
          rw [hrec] at hsync
          simp only [hrec, Option.elim] at hsync ⊢
          omega
    · rw [mgetD_mset_ne _ _ hk]
      exact h.lockNonneg k
  · exact h.classConserve
  · exact h.totalConserve
  · intro k
    by_cases hk : k = (owner, tokenId)
    · subst hk
      rw [mgetD_mset_self]
      cases hrec : mget s.lockRec (owner, tokenId) with
      | none =>
          rw [hrec] at hsync
          simp only [hrec, Option.elim] at hsync ⊢
          omega
      | some old =>
          rw [hrec] at hsync
          simp only [hrec, Option.elim] at hsync ⊢
          omega
    · rw [mgetD_mset_ne _ _ hk]
      exact h.lockLeBal k
  · intro k
    by_cases hk : k = (owner, tokenId)
    · subst hk
      rw [mgetD_mset_self, mget_mset_self]
      cases hrec : mget s.lockRec (owner, tokenId) <;> rfl
    · rw [mgetD_mset_ne _ _ hk, mget_mset_ne _ hk]
      exact h.lockSync k
  · exact h.pricePos

/-- Preservation of the invariant by a successful unlock. -/
theorem inv_unlock {ctx : Ctx} {s s' : State} {owner : Addr} {tokenId : TokenId}
    (h : Inv s) (hs : unlock ctx s owner tokenId = .ok s') : Inv s' := by
  simp only [unlock] at hs
  split_ifs at hs with h1 h2
  cases hrec : mget s.lockRec (owner, tokenId) with
  | none => rw [hrec] at hs; exact Except.noConfusion hs
  | some lockData =>
      rw [hrec] at hs
      simp only [] at hs
      split_ifs at hs with h3
      injection hs with hs2
      subst hs2
      constructor
      · exact h.balNodup
      · exact h.supNodup
      · exact h.balNonneg
      · intro k
        by_cases hk : k = (owner, tokenId)
        · subst hk; rw [mgetD_mdel_self]
        · rw [mgetD_mdel_ne _ hk]; exact h.lockNonneg k
      · exact h.classConserve
      · exact h.totalConserve
      · intro k
        by_cases hk : k = (owner, tokenId)
        · subst hk
          rw [mgetD_mdel_self]
          exact h.balNonneg (owner, tokenId)
        · rw [mgetD_mdel_ne _ hk]
          exact h.lockLeBal k
      · intro k
        by_cases hk : k = (owner, tokenId)
        · subst hk
          rw [mgetD_mdel_self, mget_eq_none (not_mem_keys_mdel _ _)]
          rfl
        · rw [mgetD_mdel_ne _ hk, mget_mdel_ne hk]
          exact h.lockSync k
      · exact h.pricePos

/-- Preservation of the invariant by a successful buy. -/
theorem inv_buyCompute {hash : ModelId → TokenId} {ctx : Ctx} {s s' : State}
    {buyer : Addr} {modelId : ModelId} {gasAmount res : Int} (h : Inv s)
    (hs : buyCompute hash ctx s buyer modelId gasAmount = .ok (s', res)) : Inv s' := by
  simp only [buyCompute] at hs
  split_ifs at hs with h1 h2 h3 h4 h5
  injection hs with hs2
  injection hs2 with hA hB
  subst hA
  exact inv_of_fields (inv_mintInternal _ _ _ _ h h5) rfl rfl rfl rfl rfl rfl

set_option maxHeartbeats 1000000 in
/-- Preservation of the invariant by a successful sell. -/
theorem inv_sellCompute {hash : ModelId → TokenId} {ctx : Ctx} {s s' : State}
    {seller : Addr} {modelId : ModelId} {amount res : Int} {evs : List Event}
    (h : Inv s)
    (hs : sellCompute hash ctx s seller modelId amount = .ok (s', evs, res)) :
    Inv s' := by
  simp only [sellCompute] at hs
  split_ifs at hs with h1 h2 h3 h4 h5 h6 h7 h8 h9
  injection hs with hs2
  injection hs2 with hA hB
  subst hA
  simp only [getBalance, getLockedAmount] at h5
  exact inv_of_fields (inv_burnInternal _ _ h (by omega)) rfl rfl rfl rfl rfl rfl

/-- Preservation of the invariant by a successful mint. -/
theorem inv_mint {hash : ModelId → TokenId} {ctx : Ctx} {s s' : State}
    {dst : Addr} {modelId : ModelId} {amount qualityScore : Int} (h : Inv s)
    (hs : mint hash ctx s dst modelId amount qualityScore = .ok s') : Inv s' := by
  simp only [mint] at hs
  split_ifs at hs with h1 h2 h3 h4 h5
  injection hs with hs2
  subst hs2
  exact inv_mintInternal _ _ _ _ h h5

/-- Preservation of the invariant by a successful burn. -/
theorem inv_burn {ctx : Ctx} {s s' : State} {owner : Addr} {tokenId : TokenId}
    {amount : Int} (h : Inv s)
    (hs : burn ctx s owner tokenId amount = .ok s') : Inv s' := by
  simp only [burn] at hs
  split_ifs at hs with h1 h2 h3 h4
  injection hs with hs2
  subst hs2
  simp only [getBalance, getLockedAmount] at h4
  exact inv_burnInternal _ _ h (by omega)

/-- Preservation of the invariant by a successful mint_rewards. -/
theorem inv_mintRewards {hash : ModelId → TokenId} {ctx : Ctx} {s s' : State}
    {provider : Addr} {modelId : ModelId} {amount : Int} (h : Inv s)
    (hs : mintRewards hash ctx s provider modelId amount = .ok s') : Inv s' := by
  simp only [mintRewards] at hs
  split_ifs at hs with h1 h2 h3
  cases hrec : mget s.providers provider with
  | none => rw [hrec] at hs; exact Except.noConfusion hs
  | some providerData =>
      rw [hrec] at hs
      simp only [] at hs
      injection hs with hs2
      subst hs2
      exact inv_of_fields (inv_mintInternal _ _ _ _ h h2) rfl rfl rfl rfl rfl rfl

/-- Preservation of the invariant by a successful price update: the new stored
price is positive by the operation's own assert. -/
theorem inv_updatePriceOracle {hash : ModelId → TokenId} {ctx : Ctx} {s s' : State}
    {modelId : ModelId} {newPrice : Int} (h : Inv s)
    (hs : updatePriceOracle hash ctx s modelId newPrice = .ok s') : Inv s' := by
  simp only [updatePriceOracle] at hs
  split_ifs at hs with h1 h2 h3 h4 h5 <;>
  · injection hs with hs2
    subst hs2
    refine { balNodup := h.balNodup, supNodup := h.supNodup,
             balNonneg := h.balNonneg, lockNonneg := h.lockNonneg,
             classConserve := h.classConserve, totalConserve := h.totalConserve,
             lockLeBal := h.lockLeBal, lockSync := h.lockSync, pricePos := ?_ }
    intro t p hp
    by_cases ht : t = hash modelId
    · subst ht
      rw [mget_mset_self] at hp
      injection hp with hp2
      omega
    · rw [mget_mset_ne _ ht] at hp
      exact h.pricePos t p hp

/-- Preservation of the invariant by approve, which touches only allowances. -/
theorem inv_approve {ctx : Ctx} {s s' : State} {owner spender : Addr}
    {amount : Int} {tokenId : TokenId} (h : Inv s)
    (hs : approve ctx s owner spender amount tokenId = .ok s') : Inv s' := by
  simp only [approve] at hs
  split_ifs at hs with h1 h2
  all_goals
    first
      | exact Except.noConfusion hs
      | (injection hs with hs2; subst hs2;
         exact inv_of_fields h rfl rfl rfl rfl rfl rfl)

/-- Preservation of the invariant by register_provider. -/
theorem inv_registerProvider {ctx : Ctx} {s s' : State}
    {name endpoint geoRegion providerType : String} (h : Inv s)
    (hs : registerProvider ctx s name endpoint geoRegion providerType = .ok s') :
    Inv s' := by
  simp only [registerProvider] at hs
  split_ifs at hs with h1 h2
  injection hs with hs2
  subst hs2
  exact inv_of_fields h rfl rfl rfl rfl rfl rfl

/-- Preservation of the invariant by update_provider_reputation. -/
theorem inv_updateProviderReputation {ctx : Ctx} {s s' : State} {provider : Addr}
    {newScore : Int} (h : Inv s)
    (hs : updateProviderReputation ctx s provider newScore = .ok s') : Inv s' := by
  simp only [updateProviderReputation] at hs
  split_ifs at hs with h1 h2 h3
  cases hrec : mget s.providers provider with
  | none => rw [hrec] at hs; exact Except.noConfusion hs
  | some pd =>
      rw [hrec] at hs
      simp only [] at hs
      injection hs with hs2
      subst hs2
      exact inv_of_fields h rfl rfl rfl rfl rfl rfl

/-- Preservation of the invariant by set_price_floor (the floor map is not
constrained by the invariant). -/
theorem inv_setPriceFloor {hash : ModelId → TokenId} {ctx : Ctx} {s s' : State}
    {modelId : ModelId} {minPriceArg : Int} (h : Inv s)
    (hs : setPriceFloor hash ctx s modelId minPriceArg = .ok s') : Inv s' := by
  simp only [setPriceFloor] at hs
  split_ifs at hs with h1 h2
  all_goals
    first
      | exact Except.noConfusion hs
      | (injection hs with hs2; subst hs2;
         exact inv_of_fields h rfl rfl rfl rfl rfl rfl)

/-- Preservation of the invariant by set_swap_fee. -/
theorem inv_setSwapFee {ctx : Ctx} {s s' : State} {feeBps : Int} (h : Inv s)
    (hs : setSwapFee ctx s feeBps = .ok s') : Inv s' := by
  simp only [setSwapFee] at hs
  split_ifs at hs with h1 h2
  injection hs with hs2
  subst hs2
  exact inv_of_fields h rfl rfl rfl rfl rfl rfl

/-- Preservation of the invariant by pause. -/
theorem inv_pauseOp {ctx : Ctx} {s s' : State} (h : Inv s)
    (hs : pauseOp ctx s = .ok s') : Inv s' := by
  simp only [pauseOp] at hs
  split_ifs at hs with h1
  injection hs with hs2
  subst hs2
  exact inv_of_fields h rfl rfl rfl rfl rfl rfl

/-- Preservation of the invariant by resume. -/
theorem inv_resumeOp {ctx : Ctx} {s s' : State} (h : Inv s)
    (hs : resumeOp ctx s = .ok s') : Inv s' := by
  simp only [resumeOp] at hs
  split_ifs at hs with h1
  injection hs with hs2
  subst hs2
  exact inv_of_fields h rfl rfl rfl rfl rfl rfl

/-- Preservation of the invariant by update_admin. -/
theorem inv_updateAdmin {ctx : Ctx} {s s' : State} {newAdmin : Addr} (h : Inv s)
    (hs : updateAdmin ctx s newAdmin = .ok s') : Inv s' := by
  simp only [updateAdmin] at hs
  split_ifs at hs with h1
  injection hs with hs2
  subst hs2
  exact inv_of_fields h rfl rfl rfl rfl rfl rfl

/-- Preservation of the invariant by set_governance. -/
theorem inv_setGovernance {ctx : Ctx} {s s' : State} {governanceHash : Addr}
    (h : Inv s) (hs : setGovernance ctx s governanceHash = .ok s') : Inv s' := by
  simp only [setGovernance] at hs
  split_ifs at hs with h1
  injection hs with hs2
  subst hs2
  exact inv_of_fields h rfl rfl rfl rfl rfl rfl

/-- Preservation of the invariant by set_oracle. -/
theorem inv_setOracle {ctx : Ctx} {s s' : State} {oracleAddr : Addr}
    {authorized : Bool} (h : Inv s)
    (hs : setOracle ctx s oracleAddr authorized = .ok s') : Inv s' := by
  simp only [setOracle] at hs
  split_ifs at hs with h1 h2
  all_goals
    first
      | exact Except.noConfusion hs
      | (injection hs with hs2; subst hs2;
         exact inv_of_fields h rfl rfl rfl rfl rfl rfl)

/-- Preservation of the invariant by set_minter. -/
theorem inv_setMinter {ctx : Ctx} {s s' : State} {minterAddr : Addr}
    {authorized : Bool} (h : Inv s)
    (hs : setMinter ctx s minterAddr authorized = .ok s') : Inv s' := by
  simp only [setMinter] at hs
  split_ifs at hs with h1 h2
  all_goals
    first
      | exact Except.noConfusion hs
      | (injection hs with hs2; subst hs2;
         exact inv_of_fields h rfl rfl rfl rfl rfl rfl)

/-- Preservation of the invariant by withdraw_gas, which touches only the
reserve. -/
theorem inv_withdrawGas {ctx : Ctx} {s s' : State} {dst : Addr} {amount : Int}
    {evs : List Event} (h : Inv s)
    (hs : withdrawGas ctx s dst amount = .ok (s', evs)) : Inv s' := by
  simp only [withdrawGas] at hs
  split_ifs at hs with h1 h2 h3 h4
  injection hs with hs2
  injection hs2 with hA hB
  subst hA
  exact inv_of_fields h rfl rfl rfl rfl rfl rfl

/-- Preservation of the invariant by onNEP17Payment, whose auto-buy branch
reduces to a buy. -/
theorem inv_onNEP17Payment {hash : ModelId → TokenId} {ctx : Ctx} {s s' : State}
    {fromAddr : Addr} {amount : Int} {dataModel : Option ModelId} (h : Inv s)
    (hs : onNEP17Payment hash ctx s fromAddr amount dataModel = .ok s') : Inv s' := by
  simp only [onNEP17Payment] at hs
  split_ifs at hs with h1
  cases dataModel with
  | none =>
      simp only [] at hs
      injection hs with hs2
      subst hs2
      exact inv_of_fields h rfl rfl rfl rfl rfl rfl
  | some modelId =>
      simp only [] at hs
      cases hb : buyCompute hash ctx
          { s with gasReserve := s.gasReserve } fromAddr modelId amount with
      | error e =>
          rw [hb] at hs
          exact Except.noConfusion hs
      | ok p =>
          rw [hb] at hs
          simp only [Except.map] at hs
          injection hs with hs2
          subst hs2
          exact inv_buyCompute (inv_of_fields h rfl rfl rfl rfl rfl rfl) hb

/-- Every step preserves the invariant. -/
theorem inv_step {hash : ModelId → TokenId} {s s' : State} (h : Inv s)
    (hs : Step hash s s') : Inv s' := by
  cases hs with
  | ofTransfer ctx fromAddr dst amount tokenId _ _ he => exact inv_transfer h he
  | ofApprove ctx owner spender amount tokenId _ _ he => exact inv_approve h he
  | ofLock ctx owner tokenId amount duration _ _ he => exact inv_lock h he
  | ofUnlock ctx owner tokenId _ _ he => exact inv_unlock h he
  | ofBuy ctx buyer modelId gasAmount _ _ res he => exact inv_buyCompute h he
  | ofSell ctx seller modelId amount _ _ evs res he => exact inv_sellCompute h he
  | ofMint ctx dst modelId amount qualityScore _ _ he => exact inv_mint h he
  | ofBurn ctx owner tokenId amount _ _ he => exact inv_burn h he
  | ofMintRewards ctx provider modelId amount _ _ he => exact inv_mintRewards h he
  | ofRegisterProvider ctx name endpoint geoRegion providerType _ _ he =>
      exact inv_registerProvider h he
  | ofUpdateReputation ctx provider newScore _ _ he =>
      exact inv_updateProviderReputation h he
  | ofUpdatePrice ctx modelId newPrice _ _ he => exact inv_updatePriceOracle h he
  | ofSetPriceFloor ctx modelId minPriceArg _ _ he => exact inv_setPriceFloor h he
  | ofSetSwapFee ctx feeBps _ _ he => exact inv_setSwapFee h he
  | ofPause ctx _ _ he => exact inv_pauseOp h he
  | ofResume ctx _ _ he => exact inv_resumeOp h he
  | ofUpdateAdmin ctx newAdmin _ _ he => exact inv_updateAdmin h he
  | ofSetGovernance ctx governanceHash _ _ he => exact inv_setGovernance h he
  | ofSetOracle ctx oracleAddr authorized _ _ he => exact inv_setOracle h he
  | ofSetMinter ctx minterAddr authorized _ _ he => exact inv_setMinter h he
  | ofWithdrawGas ctx dst amount _ _ evs he => exact inv_withdrawGas h he
  | ofOnNEP17Payment ctx fromAddr amount dataModel _ _ he =>
      exact inv_onNEP17Payment h he

/-- Every reachable state satisfies the invariant. -/
theorem reachable_inv {hash : ModelId → TokenId} {s : State}
    (h : Reachable hash s) : Inv s := by
  induction h with
  | deployed deployer => exact inv_genesis deployer
  | step _ hstep ih => exact inv_step ih hstep

/-- Extraction of the success value of an invocation, with a fallback. -/
def okD {α : Type} (e : Except Err α) (d : α) : α :=
  match e with
  | .ok a => a
  | .error _ => d

/-- Demo transaction context of the deployer, who is admin, oracle and minter
at genesis. -/
def ctxDeployer : Ctx :=
  { caller := 0, witnesses := [0], height := 10, contracts := [],
    callbackOk := true, extTransferOk := true }

/-- Demo transaction context witnessed by user address 5. -/
def ctxUser5 : Ctx :=
  { caller := 5, witnesses := [5], height := 20, contracts := [],
    callbackOk := true, extTransferOk := true }

/-- Demo state: the deployer mints 1000000 units at quality 80 (so 800000
units) of class 7 to address 5. -/
def demoMintState : State :=
  okD (mint id ctxDeployer (genesis 0) 5 7 1000000 80) (genesis 0)

theorem demoMint_ok :
    mint id ctxDeployer (genesis 0) 5 7 1000000 80 = .ok demoMintState := rfl

theorem demoMint_reachable : Reachable id demoMintState :=
  (Reachable.deployed 0).step
    (Step.ofMint ctxDeployer 5 7 1000000 80 (genesis 0) demoMintState demoMint_ok)

/-- Demo state: address 5 then locks 1000 units of class 7 for 100 blocks. -/
def demoLockState : State :=
  okD (lock ctxUser5 demoMintState 5 7 1000 100) demoMintState

theorem demoLock_ok :
    lock ctxUser5 demoMintState 5 7 1000 100 = .ok demoLockState := rfl

theorem demoLock_reachable : Reachable id demoLockState :=
  demoMint_reachable.step
    (Step.ofLock ctxUser5 5 7 1000 100 demoMintState demoLockState demoLock_ok)

/-- C1: Supply conservation.  In every state reachable from a deployed genesis
state by any sequence of successful invocations (mint, burn, transfer, buy,
sell and all other operations), the sum of the stored balances of a class over
all owners equals that class's stored supply, and the sum of all class
supplies equals the stored total supply. -/
theorem supply_conservation (hash : ModelId → TokenId) (s : State)
    (h : Reachable hash s) :
    (∀ t, classBalanceSum s t = tokenSupplyView s t) ∧
    supplySum s = totalSupplyView s :=
  ⟨fun t => (reachable_inv h).classConserve t, (reachable_inv h).totalConserve⟩

/-- Witness for C1: the conservation equations evaluated on the concrete
reachable state demoLockState. -/
theorem supply_conservation_witness :
    ((∀ t, classBalanceSum demoLockState t = tokenSupplyView demoLockState t) ∧
      supplySum demoLockState = totalSupplyView demoLockState) ∧
    classBalanceSum demoLockState 7 = 800000 ∧
    totalSupplyView demoLockState = 800000 :=
  ⟨supply_conservation id demoLockState demoLock_reachable, by decide, by decide⟩

/-- C3: Collateral invariant.  In every reachable state (including the state
immediately after a successful lock), the locked amount never exceeds the
balance for any owner and class, and availableBalanceOf returns balance minus
locked, which is never negative. -/
theorem collateral_invariant (hash : ModelId → TokenId) (s : State)
    (h : Reachable hash s) (owner : Addr) (tokenId : TokenId) :
    getLockedAmount s owner tokenId ≤ getBalance s owner tokenId ∧
    availableBalanceOf s owner tokenId =
      getBalance s owner tokenId - getLockedAmount s owner tokenId ∧
    0 ≤ availableBalanceOf s owner tokenId := by
  have hinv := reachable_inv h
  have hle := hinv.lockLeBal (owner, tokenId)
  refine ⟨hle, rfl, ?_⟩
  simp only [availableBalanceOf, getBalance, getLockedAmount]
  omega

/-- Witness for C3: evaluated on the concrete reachable state immediately
after the lock of 1000 units out of a balance of 800000. -/
theorem collateral_invariant_witness :
    (getLockedAmount demoLockState 5 7 ≤ getBalance demoLockState 5 7 ∧
      availableBalanceOf demoLockState 5 7 =
        getBalance demoLockState 5 7 - getLockedAmount demoLockState 5 7 ∧
      0 ≤ availableBalanceOf demoLockState 5 7) ∧
    availableBalanceOf demoLockState 5 7 = 799000 :=
  ⟨collateral_invariant id demoLockState demoLock_reachable 5 7, by decide⟩

theorem mem_mdel_ne {K V : Type} [DecidableEq K] {l : List (K × V)} {k : K}
    {e : K × V} (h : e ∈ mdel l k) : e.1 ≠ k := by
  induction l with
  | nil => simp [mdel] at h
  | cons e2 rest ih =>
    simp only [mdel] at h
    split at h
    · exact ih h
    next hne =>
      rcases List.mem_cons.mp h with rfl | hm
      · exact hne
      · exact ih hm

theorem countP_mset {K V : Type} [DecidableEq K] (l : List (K × V)) (k : K) (v : V) :
    (mset l k v).countP (fun e => decide (e.1 = k)) = 1 := by
  simp only [mset, List.countP_cons]
  rw [List.countP_eq_zero.mpr]
  · simp
  · intro e he
    simp only [decide_eq_true_eq]
    exact mem_mdel_ne he

/-- Demo state holding an existing lock of 1000 units with unlock height 110
on (owner 5, class 7), with a balance of 10000. -/
def lockPrevState : State :=
  { genesis 0 with
    bal := [((5, 7), 10000)], supply := [(7, 10000)], totalSupply := 10000,
    lockRec := [((5, 7), { amount := 1000, unlockBlock := 110, createdAt := 10 })],
    locked := [((5, 7), 1000)] }

/-- C7: Lock extension semantics.  A successful lock on an (owner, class) that
already has a lock record with amount L and unlock height U leaves exactly one
lock record, holding amount L + amount and unlock height
max(U, height + duration); the locked amount and the unlock height never
decrease. -/
theorem lock_extension (ctx : Ctx) (s s' : State) (owner : Addr)
    (tokenId : TokenId) (amount duration L U C : Int)
    (hprev : mget s.lockRec (owner, tokenId) =
      some { amount := L, unlockBlock := U, createdAt := C })
    (hs : lock ctx s owner tokenId amount duration = .ok s') :
    mget s'.lockRec (owner, tokenId) =
      some { amount := L + amount,
             unlockBlock := max U ((ctx.height : Int) + duration),
             createdAt := C } ∧
    mgetD s'.locked (owner, tokenId) 0 = L + amount ∧
    L ≤ L + amount ∧
    U ≤ max U ((ctx.height : Int) + duration) ∧
    s'.lockRec.countP (fun e => decide (e.1 = (owner, tokenId))) = 1 := by
  simp only [lock] at hs
  split_ifs at hs with h1 h2 h3 h4 h5
  rw [hprev] at hs
  simp only [] at hs
  injection hs with hs2
  subst hs2
  have hmax : (if (ctx.height : Int) + duration > U then (ctx.height : Int) + duration
      else U) = max U ((ctx.height : Int) + duration) := by
    rw [max_def]
    split_ifs <;> omega
  refine ⟨?_, ?_, by omega, le_max_left _ _, countP_mset _ _ _⟩
  · rw [mget_mset_self, hmax]
  · rw [mgetD_mset_self]

/-- Witness state for C7: the result of extending the demo lock by 500 units
for 200 blocks at height 20. -/
def lockExtState : State :=
  okD (lock ctxUser5 lockPrevState 5 7 500 200) lockPrevState

theorem lockExt_ok : lock ctxUser5 lockPrevState 5 7 500 200 = .ok lockExtState := rfl

/-- Witness for C7: the extension applied at a concrete lock, giving amount
1500 and unlock height max(110, 220) = 220. -/
theorem lock_extension_witness :
    (mget lockExtState.lockRec (5, 7) =
      some { amount := 1000 + 500,
             unlockBlock := max 110 ((ctxUser5.height : Int) + 200),
             createdAt := 10 } ∧
      mgetD lockExtState.locked (5, 7) 0 = 1000 + 500 ∧
      (1000 : Int) ≤ 1000 + 500 ∧
      (110 : Int) ≤ max 110 ((ctxUser5.height : Int) + 200) ∧
      lockExtState.lockRec.countP (fun e => decide (e.1 = (5, 7))) = 1) ∧
    mget lockExtState.lockRec (5, 7) =
      some { amount := 1500, unlockBlock := 220, createdAt := 10 } :=
  ⟨lock_extension ctxUser5 lockPrevState lockExtState 5 7 500 200 1000 110 10
      rfl lockExt_ok, by decide⟩

/-- Demo state holding a registered provider at address 9. -/
def repState : State :=
  { genesis 0 with
    providers :=
      [(9, { name := "p", endpoint := "e", geoRegion := "r", providerType := "t",
             reputationScore := 50, totalEarned := 0, registeredAt := 5,
             active := true })] }

/-- Counterexample for C8: with a registered provider and an oracle caller,
update_provider_reputation with score 101 does not succeed and store the
clamped value 100; it aborts with the 0-100 range assert (InvalidInput). -/
theorem reputation_clamping_counterexample :
    updateProviderReputation ctxDeployer repState 9 101 = .error .invalidInput ∧
    updateProviderReputation ctxDeployer repState 9 (-1) = .error .invalidInput := by
  constructor <;> rfl

/-- C8 (amended): update_provider_reputation succeeds only for scores already
in [0, 100] and stores the score unchanged (which equals its clamp on that
range); out-of-range scores are rejected, so every stored reputation is in
[0, 100]. -/
theorem reputation_clamping_amended (ctx : Ctx) (s s' : State) (provider : Addr)
    (score : Int)
    (hs : updateProviderReputation ctx s provider score = .ok s') :
    0 ≤ score ∧ score ≤ 100 ∧
    (mget s'.providers provider).map (fun pd => pd.reputationScore) = some score ∧
    score = max 0 (min 100 score) := by
  simp only [updateProviderReputation] at hs
  split_ifs at hs with h1 h2 h3
  cases hrec : mget s.providers provider with
  | none => rw [hrec] at hs; exact Except.noConfusion hs
  | some pd =>
      rw [hrec] at hs
      simp only [] at hs
      injection hs with hs2
      subst hs2
      refine ⟨by omega, by omega, ?_, ?_⟩
      · rw [mget_mset_self]
        rfl
      · rw [max_def, min_def]
        split_ifs <;> omega

/-- Witness state for C8: reputation of provider 9 updated to 88. -/
def repUpdState : State :=
  okD (updateProviderReputation ctxDeployer repState 9 88) repState

theorem repUpd_ok :
    updateProviderReputation ctxDeployer repState 9 88 = .ok repUpdState := rfl

/-- Witness for C8: a valid score 88 is stored unchanged. -/
theorem reputation_clamping_amended_witness :
    (0 : Int) ≤ 88 ∧ (88 : Int) ≤ 100 ∧
    (mget repUpdState.providers 9).map (fun pd => pd.reputationScore) = some 88 ∧
    (88 : Int) = max 0 (min 100 88) :=
  reputation_clamping_amended ctxDeployer repState repUpdState 9 88 repUpd_ok

/-- Demo marketplace state: class 7 priced at 0.5 GAS (50000000 base units per
1.0 COMPUTE), genesis fee of 30 bps, user 5 holding 3.0 COMPUTE, and a reserve
of 10 GAS. -/
def marketState : State :=
  { genesis 0 with
    price := [(7, 50000000)],
    bal := [((5, 7), 300000000)], supply := [(7, 300000000)],
    totalSupply := 300000000, gasReserve := 1000000000 }

/-- C9: Buy arithmetic.  A successful buy computes
fee = floor(reserve_in * fee_bps / 10000), net = reserve_in - fee, mints
exactly floor(net * 10^8 / price) units (rejecting a zero mint), credits them
to the buyer and the class supply, and adds the full reserve_in (fee
included) to the reserve. -/
theorem buy_arithmetic (hash : ModelId → TokenId) (ctx : Ctx) (s s' : State)
    (buyer : Addr) (modelId : ModelId) (gasAmount res : Int)
    (hs : buyCompute hash ctx s buyer modelId gasAmount = .ok (s', res)) :
    res = ((gasAmount - (gasAmount * s.swapFeeBps).fdiv 10000) * ONE_TOKEN).fdiv
        (mgetD s.price (hash modelId) 0) ∧
    0 < res ∧
    s'.gasReserve = s.gasReserve + gasAmount ∧
    mgetD s'.bal (buyer, hash modelId) 0 =
      mgetD s.bal (buyer, hash modelId) 0 + res ∧
    mgetD s'.supply (hash modelId) 0 = mgetD s.supply (hash modelId) 0 + res := by
  simp only [buyCompute] at hs
  split_ifs at hs with h1 h2 h3 h4 h5
  injection hs with hs2
  injection hs2 with hA hB
  subst hA
  subst hB
  refine ⟨rfl, h5, rfl, ?_, ?_⟩
  · rw [mintInternal_bal, mgetD_mset_self]
  · rw [mintInternal_supply, mgetD_mset_self]

/-- Witness result for C9: the scenario buy of 1.0 GAS at price 0.5 GAS per
token with the genesis fee of 30 bps. -/
def scenBuyPair : State × Int :=
  okD (buyCompute id ctxDeployer marketState 5 7 100000000) (marketState, 0)

theorem scenBuy_ok :
    buyCompute id ctxDeployer marketState 5 7 100000000 =
      .ok (scenBuyPair.1, scenBuyPair.2) := rfl

/-- Witness for C9: in the scenario, fee = 300000 (0.003 GAS), net = 99700000,
and minted = 199400000 base units (1.994 COMPUTE), with the full 1.0 GAS added
to the reserve. -/
theorem buy_arithmetic_witness :
    (scenBuyPair.2 =
        ((100000000 - (100000000 * marketState.swapFeeBps).fdiv 10000) *
            ONE_TOKEN).fdiv (mgetD marketState.price (id 7) 0) ∧
      0 < scenBuyPair.2 ∧
      scenBuyPair.1.gasReserve = marketState.gasReserve + 100000000 ∧
      mgetD scenBuyPair.1.bal (5, id 7) 0 =
        mgetD marketState.bal (5, id 7) 0 + scenBuyPair.2 ∧
      mgetD scenBuyPair.1.supply (id 7) 0 =
        mgetD marketState.supply (id 7) 0 + scenBuyPair.2) ∧
    (100000000 * marketState.swapFeeBps).fdiv 10000 = 300000 ∧
    ((100000000 - 300000) * ONE_TOKEN).fdiv 50000000 = 199400000 ∧
    scenBuyPair.2 = 199400000 :=
  ⟨buy_arithmetic id ctxDeployer marketState scenBuyPair.1 5 7 100000000
      scenBuyPair.2 scenBuy_ok, by decide, by decide, by decide⟩

/-- Demo state for C10: owner 5 holds 1000 units of class 7 and has approved
spender 8 for up to 600 units. -/
def apprState : State :=
  { genesis 0 with
    bal := [((5, 7), 1000)], supply := [(7, 1000)], totalSupply := 1000,
    approved := [((5, 7, 8), 600)] }

/-- Demo transaction context of spender address 8 (owner 5 not witnessed). -/
def ctxSpender8 : Ctx :=
  { caller := 8, witnesses := [8], height := 30, contracts := [],
    callbackOk := true, extTransferOk := true }

/-- C10: Approvals are not consumed.  A successful transfer authorized through
an allowance (the owner is not witnessed and the calling spender's allowance
covers the amount) leaves the entire allowance map, and in particular the
used allowance entry, exactly as it was before the transfer. -/
theorem approval_not_consumed (ctx : Ctx) (s s' : State) (fromAddr dst : Addr)
    (amount : Int) (tokenId : TokenId)
    (hnw : checkWitness ctx fromAddr = false)
    (hap : isApproved s fromAddr tokenId ctx.caller amount = true)
    (hs : transfer ctx s fromAddr dst amount tokenId = .ok s') :
    s'.approved = s.approved ∧
    allowance s' fromAddr ctx.caller tokenId =
      allowance s fromAddr ctx.caller tokenId := by
  simp only [transfer] at hs
  split_ifs at hs with h1 h2 h3 h4 h5
  injection hs with hs2
  subst hs2
  exact ⟨rfl, rfl⟩

/-- Witness state for C10: spender 8 transfers 400 of owner 5's units to
address 6 using the 600-unit allowance. -/
def apprTransferState : State :=
  okD (transfer ctxSpender8 apprState 5 6 400 7) apprState

theorem apprTransfer_ok :
    transfer ctxSpender8 apprState 5 6 400 7 = .ok apprTransferState := rfl

/-- Witness for C10: after the approval-authorized transfer the allowance
entry still reads 600. -/
theorem approval_not_consumed_witness :
    (apprTransferState.approved = apprState.approved ∧
      allowance apprTransferState 5 8 7 = allowance apprState 5 8 7) ∧
    allowance apprTransferState 5 8 7 = 600 :=
  ⟨approval_not_consumed ctxSpender8 apprState apprTransferState 5 6 400 7
      (by decide) (by decide) apprTransfer_ok, by decide⟩

set_option maxHeartbeats 1000000 in
/-- C4: Quote/execution agreement.  In any fixed state, a successful buy
returns exactly the amount previewed by get_buy_quote on the same arguments,
and a successful sell returns exactly the net payout previewed by
get_sell_quote. -/
theorem quote_execution_agreement (hash : ModelId → TokenId) (ctx : Ctx)
    (s : State) (buyer seller : Addr) (modelId : ModelId)
    (gasAmount computeAmount : Int) :
    (∀ s' res, buyCompute hash ctx s buyer modelId gasAmount = .ok (s', res) →
      getBuyQuote hash s modelId gasAmount = res) ∧
    (∀ s' evs res,
      sellCompute hash ctx s seller modelId computeAmount = .ok (s', evs, res) →
      getSellQuote hash s modelId computeAmount = res) := by
  constructor
  · intro s' res hs
    simp only [buyCompute] at hs
    split_ifs at hs with h1 h2 h3 h4 h5
    injection hs with hs2
    injection hs2 with hA hB
    subst hB
    simp only [getBuyQuote]
    rw [if_neg (by omega)]
    cases hpr : mget s.price (hash modelId) with
    | none =>
        exfalso
        simp only [mgetD, hpr, Option.getD] at h4
        omega
    | some p =>
        simp only [mgetD, hpr, Option.getD]
  · intro s' evs res hs
    simp only [sellCompute] at hs
    split_ifs at hs with h1 h2 h3 h4 h5 h6 h7 h8 h9
    injection hs with hs2
    injection hs2 with hA hBC
    injection hBC with hB hC
    subst hC
    simp only [getSellQuote]
    rw [if_neg (by omega)]
    cases hpr : mget s.price (hash modelId) with
    | none =>
        exfalso
        simp only [mgetD, hpr, Option.getD] at h6
        omega
    | some p =>
        simp only [mgetD, hpr, Option.getD]

/-- Witness result for C4/C5: the scenario sell of 2.0 COMPUTE at price 0.5,
fee 30 bps, by the witnessed seller 5. -/
def scenSellTriple : State × List Event × Int :=
  okD (sellCompute id ctxUser5 marketState 5 7 200000000) (marketState, [], 0)

set_option maxHeartbeats 1000000 in
theorem scenSell_ok :
    sellCompute id ctxUser5 marketState 5 7 200000000 =
      .ok (scenSellTriple.1, scenSellTriple.2.1, scenSellTriple.2.2) := rfl

/-- Witness for C4: the quotes equal the executed amounts on the scenario
state (buy of 1.0 GAS mints 199400000; sell of 2.0 COMPUTE pays 99700000). -/
theorem quote_execution_agreement_witness :
    getBuyQuote id marketState 7 100000000 = scenBuyPair.2 ∧
    getSellQuote id marketState 7 200000000 = scenSellTriple.2.2 ∧
    getBuyQuote id marketState 7 100000000 = 199400000 ∧
    getSellQuote id marketState 7 200000000 = 99700000 :=
  ⟨(quote_execution_agreement id ctxDeployer marketState 5 5 7
        100000000 200000000).1 scenBuyPair.1 scenBuyPair.2 scenBuy_ok,
   (quote_execution_agreement id ctxUser5 marketState 5 5 7
        100000000 200000000).2 scenSellTriple.1 scenSellTriple.2.1
        scenSellTriple.2.2 scenSell_ok,
   by decide, by decide⟩

/-- Classification of trace events: only the native GAS transfer leaves the
contract. -/
def isExternalCall : Event → Bool
  | .externalGasTransfer _ _ => true
  | _ => false

/-- Trace shape in which every internal state effect strictly precedes every
external call: the trace is an internal-effect prefix followed by an
external-call suffix. -/
def internalBeforeExternal (evs : List Event) : Prop :=
  ∃ n, (∀ e ∈ evs.take n, isExternalCall e = false) ∧
       (∀ e ∈ evs.drop n, isExternalCall e = true)

set_option maxHeartbeats 1000000 in
/-- C5: Effects before external call.  A successful sell burns the seller's
tokens and debits the reserve strictly before issuing the external GAS
payout, and a successful withdraw_reserve debits the reserve strictly before
its external payout; in both cases the returned state already reflects the
burn and the debit at the moment the external transfer is issued. -/
theorem effects_before_external_call (hash : ModelId → TokenId) (ctxS ctxW : Ctx)
    (s : State) (seller dst : Addr) (modelId : ModelId)
    (amountSell amountWd : Int) :
    (∀ s' evs res,
      sellCompute hash ctxS s seller modelId amountSell = .ok (s', evs, res) →
      evs = [Event.burnTokens seller (hash modelId) amountSell,
             Event.reserveDebit res,
             Event.externalGasTransfer seller res] ∧
      internalBeforeExternal evs ∧
      s'.bal = (burnInternal s seller (hash modelId) amountSell).bal ∧
      s'.supply = (burnInternal s seller (hash modelId) amountSell).supply ∧
      s'.totalSupply = s.totalSupply - amountSell ∧
      s'.gasReserve = s.gasReserve - res) ∧
    (∀ s' evs, withdrawGas ctxW s dst amountWd = .ok (s', evs) →
      evs = [Event.reserveDebit amountWd,
             Event.externalGasTransfer dst amountWd] ∧
      internalBeforeExternal evs ∧
      s'.gasReserve = s.gasReserve - amountWd) := by
  constructor
  · intro s' evs res hs
    simp only [sellCompute] at hs
    split_ifs at hs with h1 h2 h3 h4 h5 h6 h7 h8 h9
    injection hs with hs2
    injection hs2 with hA hBC
    injection hBC with hB hC
    subst hA
    subst hB
    subst hC
    refine ⟨rfl, ⟨2, fun e he => ?_, fun e he => ?_⟩, rfl, rfl, rfl, rfl⟩
    · have he2 : e = Event.burnTokens seller (hash modelId) amountSell ∨
          e = Event.reserveDebit
            ((amountSell * mgetD s.price (hash modelId) 0).fdiv ONE_TOKEN -
              ((amountSell * mgetD s.price (hash modelId) 0).fdiv ONE_TOKEN *
                  s.swapFeeBps).fdiv 10000) := by
        simpa using he
      rcases he2 with rfl | rfl <;> rfl
    · have he2 : e = Event.externalGasTransfer seller
          ((amountSell * mgetD s.price (hash modelId) 0).fdiv ONE_TOKEN -
            ((amountSell * mgetD s.price (hash modelId) 0).fdiv ONE_TOKEN *
                s.swapFeeBps).fdiv 10000) := by
        simpa using he
      subst he2
      rfl
  · intro s' evs hs
    simp only [withdrawGas] at hs
    split_ifs at hs with h1 h2 h3 h4
    injection hs with hs2
    injection hs2 with hA hB
    subst hA
    subst hB
    refine ⟨rfl, ⟨1, fun e he => ?_, fun e he => ?_⟩, rfl⟩
    · have he2 : e = Event.reserveDebit amountWd := by simpa using he
      subst he2
      rfl
    · have he2 : e = Event.externalGasTransfer dst amountWd := by simpa using he
      subst he2
      rfl

/-- Witness result for C5: a concrete admin withdrawal of 0.005 GAS. -/
def wdPair : State × List Event :=
  okD (withdrawGas ctxDeployer marketState 3 500000) (marketState, [])

theorem wd_ok :
    withdrawGas ctxDeployer marketState 3 500000 = .ok (wdPair.1, wdPair.2) := rfl

/-- Witness for C5: the scenario sell and withdrawal traces, with the burn and
debit strictly before the external transfer. -/
theorem effects_before_external_call_witness :
    (scenSellTriple.2.1 =
        [Event.burnTokens 5 (id 7) 200000000,
         Event.reserveDebit scenSellTriple.2.2,
         Event.externalGasTransfer 5 scenSellTriple.2.2] ∧
      internalBeforeExternal scenSellTriple.2.1 ∧
      scenSellTriple.1.bal = (burnInternal marketState 5 (id 7) 200000000).bal ∧
      scenSellTriple.1.supply =
        (burnInternal marketState 5 (id 7) 200000000).supply ∧
      scenSellTriple.1.totalSupply = marketState.totalSupply - 200000000 ∧
      scenSellTriple.1.gasReserve =
        marketState.gasReserve - scenSellTriple.2.2) ∧
    (wdPair.2 = [Event.reserveDebit 500000, Event.externalGasTransfer 3 500000] ∧
      internalBeforeExternal wdPair.2 ∧
      wdPair.1.gasReserve = marketState.gasReserve - 500000) ∧
    scenSellTriple.2.2 = 99700000 :=
  ⟨(effects_before_external_call id ctxUser5 ctxDeployer marketState 5 3 7
        200000000 500000).1 scenSellTriple.1 scenSellTriple.2.1
        scenSellTriple.2.2 scenSell_ok,
   (effects_before_external_call id ctxUser5 ctxDeployer marketState 5 3 7
        200000000 500000).2 wdPair.1 wdPair.2 wd_ok,
   by decide⟩

/-- Demo state: the deployer pauses the contract at genesis. -/
def pausedState : State := okD (pauseOp ctxDeployer (genesis 0)) (genesis 0)

theorem pausedState_ok : pauseOp ctxDeployer (genesis 0) = .ok pausedState := rfl

theorem pausedState_reachable : Reachable id pausedState :=
  (Reachable.deployed 0).step
    (Step.ofPause ctxDeployer (genesis 0) pausedState pausedState_ok)

/-- Result of an approve invoked while the contract is paused. -/
def pausedApproveState : State :=
  okD (approve ctxUser5 pausedState 5 8 100 9) pausedState

/-- Counterexample for C2: in a reachable paused state, approve does not fail
with the Paused error; it succeeds and writes the allowance, because the
source's approve performs no pause check. -/
theorem pause_totality_counterexample :
    Reachable id pausedState ∧ pausedState.paused = true ∧
    approve ctxUser5 pausedState 5 8 100 9 = .ok pausedApproveState ∧
    allowance pausedApproveState 5 8 9 = 100 :=
  ⟨pausedState_reachable, rfl, rfl, by decide⟩

/-- C2 (amended): Pause coverage.  When the pause flag is set, the mutating
entry points transfer, lock, unlock, buy, sell, mint, burn, mint_rewards,
register, update_reputation and update_price reject with the Paused error
regardless of caller, witnesses or roles (so the pause check precedes every
role/witness and reentrancy check), and the rejection leaves no state change;
but approve, set_price_floor, set_swap_fee and withdraw_reserve perform no
pause check at all and succeed while paused when otherwise authorized.
(Transfer validates its inputs before the pause check, hence the positive
amount hypothesis.) -/
theorem pause_totality_amended (hash : ModelId → TokenId) (ctx : Ctx) (s : State)
    (hp : s.paused = true) :
    (∀ fromAddr dst amount tokenId, 0 < amount →
      transfer ctx s fromAddr dst amount tokenId = .error .paused) ∧
    (∀ owner tokenId amount duration,
      lock ctx s owner tokenId amount duration = .error .paused) ∧
    (∀ owner tokenId, unlock ctx s owner tokenId = .error .paused) ∧
    (∀ buyer modelId gasAmount,
      buyCompute hash ctx s buyer modelId gasAmount = .error .paused) ∧
    (∀ seller modelId amount,
      sellCompute hash ctx s seller modelId amount = .error .paused) ∧
    (∀ dst modelId amount qualityScore,
      mint hash ctx s dst modelId amount qualityScore = .error .paused) ∧
    (∀ owner tokenId amount, burn ctx s owner tokenId amount = .error .paused) ∧
    (∀ provider modelId amount,
      mintRewards hash ctx s provider modelId amount = .error .paused) ∧
    (∀ name endpoint geoRegion providerType,
      registerProvider ctx s name endpoint geoRegion providerType =
        .error .paused) ∧
    (∀ provider newScore,
      updateProviderReputation ctx s provider newScore = .error .paused) ∧
    (∀ modelId newPrice,
      updatePriceOracle hash ctx s modelId newPrice = .error .paused) ∧
    (∀ owner spender amount tokenId, checkWitness ctx owner = true →
      ∃ s2, approve ctx s owner spender amount tokenId = .ok s2) ∧
    (∀ modelId minPriceArg, isAdmin s ctx.caller = true →
      ∃ s2, setPriceFloor hash ctx s modelId minPriceArg = .ok s2) ∧
    (∀ feeBps, isAdmin s ctx.caller = true → 0 ≤ feeBps →
      feeBps ≤ MAX_SWAP_FEE_BPS → ∃ s2, setSwapFee ctx s feeBps = .ok s2) ∧
    (∀ dst amount, isAdmin s ctx.caller = true → 0 < amount →
      amount ≤ s.gasReserve → ctx.extTransferOk = true →
      ∃ s2 evs, withdrawGas ctx s dst amount = .ok (s2, evs)) := by
  refine ⟨?_, ?_, ?_, ?_, ?_, ?_, ?_, ?_, ?_, ?_, ?_, ?_, ?_, ?_, ?_⟩
  · intro fromAddr dst amount tokenId ha
    simp [transfer, hp, ha]
  · intro owner tokenId amount duration
    simp [lock, hp]
  · intro owner tokenId
    simp [unlock, hp]
  · intro buyer modelId gasAmount
    simp [buyCompute, hp]
  · intro seller modelId amount
    simp [sellCompute, hp]
  · intro dst modelId amount qualityScore
    simp [mint, hp]
  · intro owner tokenId amount
    simp [burn, hp]
  · intro provider modelId amount
    simp [mintRewards, hp]
  · intro name endpoint geoRegion providerType
    simp [registerProvider, hp]
  · intro provider newScore
    simp [updateProviderReputation, hp]
  · intro modelId newPrice
    simp [updatePriceOracle, hp]
  · intro owner spender amount tokenId hw
    by_cases h2 : amount > 0
    · refine ⟨{ s with approved := mset s.approved (owner, tokenId, spender) amount }, ?_⟩
      simp [approve, hw, h2]
    · refine ⟨{ s with approved := mdel s.approved (owner, tokenId, spender) }, ?_⟩
      simp [approve, hw, h2]
  · intro modelId minPriceArg hadm
    by_cases h2 : minPriceArg > 0
    · refine ⟨{ s with minPrice := mset s.minPrice (hash modelId) minPriceArg }, ?_⟩
      simp [setPriceFloor, hadm, h2]
    · refine ⟨{ s with minPrice := mdel s.minPrice (hash modelId) }, ?_⟩
      simp [setPriceFloor, hadm, h2]
  · intro feeBps hadm h0 h1
    refine ⟨{ s with swapFeeBps := feeBps }, ?_⟩
    simp [setSwapFee, hadm, h0, h1]
  · intro dst amount hadm h0 h1 hext
    refine ⟨{ s with gasReserve := s.gasReserve - amount },
      [Event.reserveDebit amount, Event.externalGasTransfer dst amount], ?_⟩
    simp [withdrawGas, hadm, h0, h1, hext]

/-- Witness for C2 (amended): evaluated on the reachable paused state; the
pause-checked operations reject with Paused and approve still succeeds. -/
theorem pause_totality_amended_witness :
    pausedState.paused = true ∧
    transfer ctxDeployer pausedState 0 6 10 7 = .error .paused ∧
    buyCompute id ctxDeployer pausedState 0 7 100000000 = .error .paused ∧
    (∃ s2, approve ctxDeployer pausedState 0 8 100 9 = .ok s2) := by
  have h := pause_totality_amended id ctxDeployer pausedState rfl
  exact ⟨rfl, h.1 0 6 10 7 (by omega), h.2.2.2.1 0 7 100000000,
    h.2.2.2.2.2.2.2.2.2.2.2.1 0 8 100 9 rfl⟩

/-- Demo state: the deployer (an oracle at genesis) sets the price of class 7
to 5. -/
def priceState : State :=
  okD (updatePriceOracle id ctxDeployer (genesis 0) 7 5) (genesis 0)

theorem priceState_ok :
    updatePriceOracle id ctxDeployer (genesis 0) 7 5 = .ok priceState := rfl

/-- Demo state: the admin then sets a price floor of 10 for class 7, above the
stored price of 5. -/
def floorState : State :=
  okD (setPriceFloor id ctxDeployer priceState 7 10) priceState

theorem floorState_ok :
    setPriceFloor id ctxDeployer priceState 7 10 = .ok floorState := rfl

theorem floorState_reachable : Reachable id floorState :=
  ((Reachable.deployed 0).step
      (Step.ofUpdatePrice ctxDeployer 7 5 (genesis 0) priceState priceState_ok)).step
    (Step.ofSetPriceFloor ctxDeployer 7 10 priceState floorState floorState_ok)

/-- Counterexample for C6: a reachable state in which class 7 has an active
floor of 10 while its stored price is 5 < 10, because set_price_floor never
compares the new floor against the stored price. -/
theorem price_floor_counterexample :
    Reachable id floorState ∧
    mget floorState.price 7 = some 5 ∧
    mget floorState.minPrice 7 = some 10 ∧
    ¬((10 : Int) ≤ 5) :=
  ⟨floorState_reachable, by decide, by decide, by omega⟩

/-- C6 (amended): Price positivity and floor behavior.  In every reachable
state every stored price is positive; update_price with a value below an
active floor fails with BelowFloor (hence, the failed invocation aborting,
writes nothing); and set_price_floor with min_price = 0 removes the floor
entry.  The relation price ≥ floor is, however, not an invariant: the
counterexample shows set_price_floor can set a floor above the stored
price. -/
theorem price_floor_amended (hash : ModelId → TokenId) (s : State)
    (h : Reachable hash s) :
    (∀ t p, mget s.price t = some p → 0 < p) ∧
    (∀ ctx modelId newPrice minP,
      s.paused = false → 0 < newPrice → isOracle s ctx.caller = true →
      mget s.minPrice (hash modelId) = some minP → newPrice < minP →
      updatePriceOracle hash ctx s modelId newPrice = .error .belowFloor) ∧
    (∀ ctx modelId s2, isAdmin s ctx.caller = true →
      setPriceFloor hash ctx s modelId 0 = .ok s2 →
      mget s2.minPrice (hash modelId) = none) := by
  refine ⟨(reachable_inv h).pricePos, ?_, ?_⟩
  · intro ctx modelId newPrice minP hpf hpos hor hfl hlt
    have hfc : floorCheck s (hash modelId) newPrice = false := by
      simp only [floorCheck, hfl]
      simp only [ge_iff_le, decide_eq_false_iff_not, not_le]
      exact hlt
    simp [updatePriceOracle, hpf, hpos, hor, hfc]
  · intro ctx modelId s2 hadm hok
    simp only [setPriceFloor, hadm] at hok
    rw [if_neg (by simp), if_neg (by omega)] at hok
    injection hok with hok2
    subst hok2
    exact mget_eq_none (not_mem_keys_mdel _ _)

/-- Witness for C6 (amended): evaluated at the reachable floored state; the
price 5 is positive, pushing price 6 below the floor of 10 fails with
BelowFloor, and setting the floor to 0 removes it. -/
theorem price_floor_amended_witness :
    ((∀ t p, mget floorState.price t = some p → 0 < p) ∧
      (∀ ctx modelId newPrice minP,
        floorState.paused = false → 0 < newPrice →
        isOracle floorState ctx.caller = true →
        mget floorState.minPrice (id modelId) = some minP → newPrice < minP →
        updatePriceOracle id ctx floorState modelId newPrice =
          .error .belowFloor) ∧
      (∀ ctx modelId s2, isAdmin floorState ctx.caller = true →
        setPriceFloor id ctx floorState modelId 0 = .ok s2 →
        mget s2.minPrice (id modelId) = none)) ∧
    updatePriceOracle id ctxDeployer floorState 7 6 = .error .belowFloor :=
  ⟨price_floor_amended id floorState floorState_reachable, rfl⟩

end Chatten
